import Mathlib

/-!
Verification of the snapshot-store data-access layer of
`gardener-cluster-recorder` (`db/data_access.go`).

The development shallowly embeds the Go source: the JSON codec used by the
nested-attribute serializers (`labelsToText`, `taintsToText`, ...) is modelled
by an executable renderer/deserializer pair over a small JSON value type,
faithful to Go's `encoding/json` output format (no whitespace, sorted/ordered
object fields, HTML-escaping of `<`, `>`, `&`, control characters escaped);
the SQLite-backed store is modelled by explicit state passing over tables of
bound rows, with statement execution outcomes supplied by the environment.
Machine integers (`int64`, millisecond epoch timestamps) are modelled as `Int`;
overflow is irrelevant at the ranges involved.
-/

namespace GCR

/-! ## Characters and digits -/

def isDigitCh (c : Char) : Bool := decide ('0' ≤ c) && decide (c ≤ '9')

/-- Decimal digit characters, used by the integer renderer. -/
def digitCh (n : Nat) : Char :=
  match n with
  | 0 => '0' | 1 => '1' | 2 => '2' | 3 => '3' | 4 => '4'
  | 5 => '5' | 6 => '6' | 7 => '7' | 8 => '8' | 9 => '9'
  | _ => '*'

/-- Lowercase hex digits, as emitted by Go's `encoding/json` escaper. -/
def hexCh (n : Nat) : Char :=
  match n with
  | 0 => '0' | 1 => '1' | 2 => '2' | 3 => '3' | 4 => '4'
  | 5 => '5' | 6 => '6' | 7 => '7' | 8 => '8' | 9 => '9'
  | 10 => 'a' | 11 => 'b' | 12 => 'c' | 13 => 'd' | 14 => 'e' | 15 => 'f'
  | _ => '*'

def digitVal (c : Char) : Nat := c.toNat - 48

def hexValCh (c : Char) : Option Nat :=
  if isDigitCh c then some (c.toNat - 48)
  else if decide ('a' ≤ c) && decide (c ≤ 'f') then some (c.toNat - 87)
  else if decide ('A' ≤ c) && decide (c ≤ 'F') then some (c.toNat - 55)
  else none

theorem digitVal_digitCh : ∀ k < 10, digitVal (digitCh k) = k := by decide

theorem isDigitCh_digitCh : ∀ k < 10, isDigitCh (digitCh k) = true := by decide

theorem hexValCh_hexCh : ∀ k < 16, hexValCh (hexCh k) = some k := by decide

/-! ## Decimal rendering of naturals and integers -/

def natChars (n : Nat) : List Char :=
  if h : n < 10 then [digitCh n]
  else natChars (n / 10) ++ [digitCh (n % 10)]
  decreasing_by exact Nat.div_lt_self (by omega) (by omega)

/-- The power of ten with as many zeros as `natChars n` has digits. -/
def pow10 (n : Nat) : Nat :=
  if h : n < 10 then 10
  else pow10 (n / 10) * 10
  decreasing_by exact Nat.div_lt_self (by omega) (by omega)

def digitsValFrom (a : Nat) (ds : List Char) : Nat :=
  ds.foldl (fun acc c => acc * 10 + digitVal c) a

theorem natChars_ne_nil (n : Nat) : natChars n ≠ [] := by
  rw [natChars]
  split
  · simp
  · simp

theorem natChars_all_digits (n : Nat) : ∀ c ∈ natChars n, isDigitCh c = true := by
  induction n using Nat.strong_induction_on with
  | _ n ih =>
    rw [natChars]
    split
    · next h =>
      intro c hc
      simp only [List.mem_singleton] at hc
      subst hc
      exact isDigitCh_digitCh n h
    · next h =>
      intro c hc
      rcases List.mem_append.mp hc with h1 | h2
      · exact ih (n / 10) (Nat.div_lt_self (by omega) (by omega)) c h1
      · simp only [List.mem_singleton] at h2
        subst h2
        exact isDigitCh_digitCh _ (Nat.mod_lt _ (by omega))

theorem digitsValFrom_append (a : Nat) (xs ys : List Char) :
    digitsValFrom a (xs ++ ys) = digitsValFrom (digitsValFrom a xs) ys := by
  simp [digitsValFrom, List.foldl_append]

theorem digitsValFrom_singleton (a : Nat) (c : Char) :
    digitsValFrom a [c] = a * 10 + digitVal c := rfl

theorem digitsValFrom_natChars (n : Nat) :
    ∀ a, digitsValFrom a (natChars n) = a * pow10 n + n := by
  induction n using Nat.strong_induction_on with
  | _ n ih =>
    intro a
    rw [natChars, pow10]
    split
    · next h =>
      rw [digitsValFrom_singleton, digitVal_digitCh n h]
    · next h =>
      rw [digitsValFrom_append, ih (n / 10) (Nat.div_lt_self (by omega) (by omega)) a]
      rw [digitsValFrom_singleton, digitVal_digitCh _ (Nat.mod_lt _ (by omega))]
      rw [← Nat.mul_assoc]
      generalize a * pow10 (n / 10) = Q
      omega

theorem digitsVal_natChars (n : Nat) : digitsValFrom 0 (natChars n) = n := by
  have := digitsValFrom_natChars n 0
  simpa using this

/-- Go renders an `int64` in plain decimal, a leading minus sign for negatives. -/
def intChars (i : Int) : List Char :=
  if i < 0 then '-' :: natChars i.natAbs else natChars i.toNat

/-! ## Decimal scanning -/

def takeDigitsCh : List Char → List Char × List Char
  | [] => ([], [])
  | c :: r =>
    if isDigitCh c then
      let p := takeDigitsCh r
      (c :: p.1, p.2)
    else ([], c :: r)

def startsWithDigit : List Char → Bool
  | [] => false
  | c :: _ => isDigitCh c

theorem takeDigitsCh_append (ds : List Char) (hds : ∀ c ∈ ds, isDigitCh c = true)
    (rest : List Char) (hr : startsWithDigit rest = false) :
    takeDigitsCh (ds ++ rest) = (ds, rest) := by
  induction ds with
  | nil =>
    simp only [List.nil_append]
    cases rest with
    | nil => rfl
    | cons c t =>
      simp only [startsWithDigit] at hr
      simp [takeDigitsCh, hr]
  | cons c t ih =>
    have hc : isDigitCh c = true := hds c (by simp)
    simp only [List.cons_append, takeDigitsCh, hc, if_true, List.append_eq]
    rw [ih (fun x hx => hds x (by simp [hx]))]

/-- Scanning an unsigned decimal integer off the head of the input. -/
def scanNatCore (cs : List Char) : Option (Int × List Char) :=
  let p := takeDigitsCh cs
  if p.1.isEmpty then none
  else some ((digitsValFrom 0 p.1 : Int), p.2)

/-- Scanning a decimal integer, possibly signed, off the head of the input. -/
def scanInt (cs : List Char) : Option (Int × List Char) :=
  match cs with
  | [] => none
  | c :: r =>
    if c = '-' then (scanNatCore r).map (fun q => (-q.1, q.2))
    else scanNatCore (c :: r)

theorem natChars_head_digit (n : Nat) :
    ∃ c t, natChars n = c :: t ∧ isDigitCh c = true := by
  cases h : natChars n with
  | nil => exact absurd h (natChars_ne_nil n)
  | cons c t =>
    exact ⟨c, t, rfl, natChars_all_digits n c (by rw [h]; simp)⟩

theorem scanNatCore_natChars (n : Nat) (rest : List Char)
    (hr : startsWithDigit rest = false) :
    scanNatCore (natChars n ++ rest) = some ((n : Int), rest) := by
  rw [scanNatCore]
  simp only [takeDigitsCh_append _ (natChars_all_digits n) rest hr]
  obtain ⟨c, t, hct, _⟩ := natChars_head_digit n
  rw [hct]
  simp only [List.isEmpty_cons, if_false, Bool.false_eq_true]
  rw [← hct, digitsVal_natChars]

/-- Scanning inverts decimal rendering when the remainder starts with no digit. -/
theorem scanInt_intChars (i : Int) (rest : List Char)
    (hr : startsWithDigit rest = false) :
    scanInt (intChars i ++ rest) = some (i, rest) := by
  rw [intChars]
  split
  · next hneg =>
    simp only [List.cons_append]
    have hstep : scanInt ('-' :: (natChars i.natAbs ++ rest))
        = (scanNatCore (natChars i.natAbs ++ rest)).map (fun q => (-q.1, q.2)) := by
      rw [scanInt]
      exact if_pos rfl
    rw [hstep, scanNatCore_natChars _ _ hr]
    have hval : -((i.natAbs : Int)) = i := by omega
    simp only [Option.map_some']
    rw [hval]
  · next hpos =>
    obtain ⟨c, t, hct, hcd⟩ := natChars_head_digit i.toNat
    have hcm : ¬(c = '-') := by
      intro h
      subst h
      exact absurd hcd (by decide)
    rw [hct, List.cons_append, scanInt, if_neg hcm, ← List.cons_append, ← hct]
    rw [scanNatCore_natChars _ _ hr]
    have : ((i.toNat : Int)) = i := by omega
    rw [this]

/-! ## String escaping, as Go `encoding/json` emits it

`encoding/json.Marshal` escapes `"` and `\`, writes `\n`, `\r`, `\t` for those
control characters and `\u00xx` for the remaining ones, HTML-escapes `<`, `>`
and `&` as `<`, `>`, `&`, escapes U+2028 and U+2029, and passes
every other rune through unchanged. -/

def goEscapeChar (c : Char) : List Char :=
  if c = '"' then ['\\', '"']
  else if c = '\\' then ['\\', '\\']
  else if c = '\n' then ['\\', 'n']
  else if c = '\r' then ['\\', 'r']
  else if c = '\t' then ['\\', 't']
  else if c.toNat < 32 || c = '<' || c = '>' || c = '&' then
    ['\\', 'u', '0', '0', hexCh (c.toNat / 16), hexCh (c.toNat % 16)]
  else if c.toNat = 8232 || c.toNat = 8233 then
    ['\\', 'u', '2', '0', '2', hexCh (c.toNat % 16)]
  else [c]

def escChars (l : List Char) : List Char :=
  l.foldr (fun c acc => goEscapeChar c ++ acc) []

/-- A rendered JSON string literal: quote, escaped body, quote. -/
def renderStrChars (s : String) : List Char :=
  '"' :: (escChars s.data ++ ['"'])

/-- The single-character escapes accepted after a backslash by the scanner. -/
def unescapeCh (c : Char) : Option Char :=
  if c = '"' then some '"'
  else if c = '\\' then some '\\'
  else if c = '/' then some '/'
  else if c = 'n' then some '\n'
  else if c = 'r' then some '\r'
  else if c = 't' then some '\t'
  else if c = 'b' then some (Char.ofNat 8)
  else if c = 'f' then some (Char.ofNat 12)
  else none

def hex4 (a b c d : Char) : Option Nat :=
  match hexValCh a, hexValCh b, hexValCh c, hexValCh d with
  | some x, some y, some z, some w => some (((x * 16 + y) * 16 + z) * 16 + w)
  | _, _, _, _ => none

/-- Scanning a JSON string body (after the opening quote) up to the closing
quote, undoing escapes. -/
def parseStrBody : List Char → Option (List Char × List Char)
  | [] => none
  | c :: r =>
    if c = '"' then some ([], r)
    else if c = '\\' then
      match r with
      | [] => none
      | e :: r2 =>
        if e = 'u' then
          match r2 with
          | h1 :: h2 :: h3 :: h4c :: r3 =>
            match hex4 h1 h2 h3 h4c with
            | none => none
            | some n => (parseStrBody r3).map (fun p => (Char.ofNat n :: p.1, p.2))
          | _ => none
        else
          match unescapeCh e with
          | none => none
          | some u => (parseStrBody r2).map (fun p => (u :: p.1, p.2))
    else (parseStrBody r).map (fun p => (c :: p.1, p.2))

/-- One-step unfolding of `parseStrBody` on a cons cell. -/
theorem parseStrBody_cons (c : Char) (r : List Char) :
    parseStrBody (c :: r) =
      (if c = '"' then some ([], r)
       else if c = '\\' then
         match r with
         | [] => none
         | e :: r2 =>
           if e = 'u' then
             match r2 with
             | h1 :: h2 :: h3 :: h4c :: r3 =>
               match hex4 h1 h2 h3 h4c with
               | none => none
               | some n => (parseStrBody r3).map (fun p => (Char.ofNat n :: p.1, p.2))
             | _ => none
           else
             match unescapeCh e with
             | none => none
             | some u => (parseStrBody r2).map (fun p => (u :: p.1, p.2))
       else (parseStrBody r).map (fun p => (c :: p.1, p.2))) := by
  rw [parseStrBody.eq_def]

theorem parseStrBody_quote (r : List Char) : parseStrBody ('"' :: r) = some ([], r) := by
  rw [parseStrBody_cons]
  exact if_pos rfl

/-- Scanning one escaped character undoes `goEscapeChar`. -/
theorem parseStrBody_escape (c : Char) (cs : List Char) :
    parseStrBody (goEscapeChar c ++ cs) = (parseStrBody cs).map (fun p => (c :: p.1, p.2)) := by
  rw [goEscapeChar]
  split_ifs with h1 h2 h3 h4 h5 h6 h7
  · subst h1; simp [parseStrBody_cons, unescapeCh]
  · subst h2; simp [parseStrBody_cons, unescapeCh]
  · subst h3; simp [parseStrBody_cons, unescapeCh]
  · subst h4; simp [parseStrBody_cons, unescapeCh]
  · subst h5; simp [parseStrBody_cons, unescapeCh]
  · have hlt : c.toNat < 128 := by
      rcases Bool.or_eq_true_iff.mp h6 with ha | hb
      · rcases Bool.or_eq_true_iff.mp ha with hc | hd
        · rcases Bool.or_eq_true_iff.mp hc with he | hf
          · have := of_decide_eq_true he; omega
          · have := of_decide_eq_true hf; subst this; decide
        · have := of_decide_eq_true hd; subst this; decide
      · have := of_decide_eq_true hb; subst this; decide
    have hx : hex4 '0' '0' (hexCh (c.toNat / 16)) (hexCh (c.toNat % 16)) = some c.toNat := by
      have hhi := hexValCh_hexCh (c.toNat / 16) (by omega)
      have hlo := hexValCh_hexCh (c.toNat % 16) (by omega)
      have hz : hexValCh '0' = some 0 := by decide
      simp [hex4, hhi, hlo, hz]
      omega
    simp [parseStrBody_cons, hx, Char.ofNat_toNat]
  · have hc : c.toNat = 8232 ∨ c.toNat = 8233 := by
      rcases Bool.or_eq_true_iff.mp h7 with ha | hb
      · exact Or.inl (of_decide_eq_true ha)
      · exact Or.inr (of_decide_eq_true hb)
    have hx : hex4 '2' '0' '2' (hexCh (c.toNat % 16)) = some c.toNat := by
      have hlo := hexValCh_hexCh (c.toNat % 16) (Nat.mod_lt _ (by omega))
      have h2v : hexValCh '2' = some 2 := by decide
      have h0v : hexValCh '0' = some 0 := by decide
      simp [hex4, hlo, h2v, h0v]
      omega
    simp [parseStrBody_cons, hx, Char.ofNat_toNat]
  · simp only [List.cons_append, List.nil_append]
    rw [parseStrBody_cons]
    rw [if_neg h1, if_neg h2]

/-- Scanning a fully escaped body plus closing quote recovers the characters. -/
theorem parseStrBody_escChars (l : List Char) (cs : List Char) :
    parseStrBody (escChars l ++ ('"' :: cs)) = some (l, cs) := by
  induction l with
  | nil => simpa [escChars] using parseStrBody_quote cs
  | cons c t ih =>
    have hstep : escChars (c :: t) = goEscapeChar c ++ escChars t := rfl
    rw [hstep, List.append_assoc, parseStrBody_escape, ih]
    rfl

/-! ## JSON values and the Go `encoding/json` wire format

`Jv` models the JSON documents `encoding/json` produces for the nested
attributes this store persists: strings, `int64`-ranged numbers, arrays and
objects. `Marshal` emits no whitespace; object fields appear in the order the
renderer is given (the Go marshaller emits struct fields in declaration order
and map keys sorted, which the callers below account for). -/

def lbraceCh : Char := Char.ofNat 123

def rbraceCh : Char := Char.ofNat 125

inductive Jv where
  | jstr (s : String)
  | jnum (n : Int)
  | jarr (elems : List Jv)
  | jobj (fields : List (String × Jv))

mutual

def renderJv : Jv → List Char
  | .jstr s => renderStrChars s
  | .jnum i => intChars i
  | .jarr es => '[' :: (renderArr es ++ [']'])
  | .jobj fs => lbraceCh :: (renderObj fs ++ [rbraceCh])

def renderArr : List Jv → List Char
  | [] => []
  | [e] => renderJv e
  | e :: es => renderJv e ++ (',' :: renderArr es)

def renderObj : List (String × Jv) → List Char
  | [] => []
  | [f] => renderStrChars f.1 ++ (':' :: renderJv f.2)
  | f :: fs => renderStrChars f.1 ++ (':' :: renderJv f.2) ++ (',' :: renderObj fs)

end

/-- The textual form `json.Marshal` produces for a document. -/
def renderJson (j : Jv) : String := String.mk (renderJv j)

mutual

def parseJv : Nat → List Char → Option (Jv × List Char)
  | 0, _ => none
  | fuel + 1, cs =>
    match cs with
    | [] => none
    | c :: r =>
      if c = '"' then
        (parseStrBody r).map (fun p => (Jv.jstr (String.mk p.1), p.2))
      else if c = '[' then
        match r with
        | [] => none
        | c2 :: r2 =>
          if c2 = ']' then some (.jarr [], r2)
          else (parseArrItems fuel (c2 :: r2)).map (fun p => (Jv.jarr p.1, p.2))
      else if c = lbraceCh then
        match r with
        | [] => none
        | c2 :: r2 =>
          if c2 = rbraceCh then some (.jobj [], r2)
          else (parseObjFields fuel (c2 :: r2)).map (fun p => (Jv.jobj p.1, p.2))
      else
        (scanInt (c :: r)).map (fun p => (Jv.jnum p.1, p.2))

def parseArrItems : Nat → List Char → Option (List Jv × List Char)
  | 0, _ => none
  | fuel + 1, cs =>
    match parseJv fuel cs with
    | none => none
    | some (v, r) =>
      match r with
      | [] => none
      | c :: r2 =>
        if c = ',' then (parseArrItems fuel r2).map (fun p => (v :: p.1, p.2))
        else if c = ']' then some ([v], r2)
        else none

def parseObjFields : Nat → List Char → Option (List (String × Jv) × List Char)
  | 0, _ => none
  | fuel + 1, cs =>
    match cs with
    | [] => none
    | c :: r =>
      if c = '"' then
        match parseStrBody r with
        | none => none
        | some (k, r1) =>
          match r1 with
          | [] => none
          | c1 :: r2 =>
            if c1 = ':' then
              match parseJv fuel r2 with
              | none => none
              | some (v, r3) =>
                match r3 with
                | [] => none
                | c2 :: r4 =>
                  if c2 = ',' then
                    (parseObjFields fuel r4).map (fun p => ((String.mk k, v) :: p.1, p.2))
                  else if c2 = rbraceCh then some ([(String.mk k, v)], r4)
                  else none
            else none
      else none

end

/-- The model of `json.Unmarshal`s syntactic phase: scan one document spanning
the whole text. The fuel `s.length + 1` dominates every scanning step. -/
def parseJsonText (s : String) : Option Jv :=
  match parseJv (s.length + 1) s.data with
  | some (j, []) => some j
  | _ => none

end GCR

namespace GCR

theorem strMk_data (s : String) : String.mk s.data = s := by
  cases s
  rfl

theorem swd_cons (c : Char) (r : List Char) :
    startsWithDigit (c :: r) = isDigitCh c := rfl

theorem renderJv_str (s : String) : renderJv (.jstr s) = renderStrChars s := by
  rw [renderJv.eq_def]

theorem renderJv_num (i : Int) : renderJv (.jnum i) = intChars i := by
  rw [renderJv.eq_def]

theorem renderJv_arr (es : List Jv) :
    renderJv (.jarr es) = '[' :: (renderArr es ++ [']']) := by
  rw [renderJv.eq_def]

theorem renderJv_obj (fs : List (String × Jv)) :
    renderJv (.jobj fs) = lbraceCh :: (renderObj fs ++ [rbraceCh]) := by
  rw [renderJv.eq_def]

theorem renderArr_nil : renderArr [] = [] := by
  rw [renderArr.eq_def]

theorem renderArr_single (e : Jv) : renderArr [e] = renderJv e := by
  rw [renderArr.eq_def]

theorem renderArr_cons2 (e x : Jv) (xs : List Jv) :
    renderArr (e :: x :: xs) = renderJv e ++ (',' :: renderArr (x :: xs)) := by
  rw [renderArr.eq_def]

theorem renderObj_nil : renderObj [] = [] := by
  rw [renderObj.eq_def]

theorem renderObj_single (f : String × Jv) :
    renderObj [f] = renderStrChars f.1 ++ (':' :: renderJv f.2) := by
  rw [renderObj.eq_def]

theorem renderObj_cons2 (f g : String × Jv) (gs : List (String × Jv)) :
    renderObj (f :: g :: gs)
      = renderStrChars f.1 ++ (':' :: renderJv f.2) ++ (',' :: renderObj (g :: gs)) := by
  rw [renderObj.eq_def]

theorem parseJv_succ_cons (fuel : Nat) (c : Char) (r : List Char) :
    parseJv (fuel + 1) (c :: r) =
      (if c = '"' then
        (parseStrBody r).map (fun p => (Jv.jstr (String.mk p.1), p.2))
      else if c = '[' then
        match r with
        | [] => none
        | c2 :: r2 =>
          if c2 = ']' then some (.jarr [], r2)
          else (parseArrItems fuel (c2 :: r2)).map (fun p => (Jv.jarr p.1, p.2))
      else if c = lbraceCh then
        match r with
        | [] => none
        | c2 :: r2 =>
          if c2 = rbraceCh then some (.jobj [], r2)
          else (parseObjFields fuel (c2 :: r2)).map (fun p => (Jv.jobj p.1, p.2))
      else
        (scanInt (c :: r)).map (fun p => (Jv.jnum p.1, p.2))) := by
  rw [parseJv.eq_def]

theorem parseArrItems_succ (fuel : Nat) (cs : List Char) :
    parseArrItems (fuel + 1) cs =
      (match parseJv fuel cs with
      | none => none
      | some (v, r) =>
        match r with
        | [] => none
        | c :: r2 =>
          if c = ',' then (parseArrItems fuel r2).map (fun p => (v :: p.1, p.2))
          else if c = ']' then some ([v], r2)
          else none) := by
  rw [parseArrItems.eq_def]

theorem parseObjFields_succ_cons (fuel : Nat) (c : Char) (r : List Char) :
    parseObjFields (fuel + 1) (c :: r) =
      (if c = '"' then
        match parseStrBody r with
        | none => none
        | some (k, r1) =>
          match r1 with
          | [] => none
          | c1 :: r2 =>
            if c1 = ':' then
              match parseJv fuel r2 with
              | none => none
              | some (v, r3) =>
                match r3 with
                | [] => none
                | c2 :: r4 =>
                  if c2 = ',' then
                    (parseObjFields fuel r4).map (fun p => ((String.mk k, v) :: p.1, p.2))
                  else if c2 = rbraceCh then some ([(String.mk k, v)], r4)
                  else none
            else none
      else none) := by
  rw [parseObjFields.eq_def]

theorem digit_ne_delims (c : Char) (h : isDigitCh c = true) :
    ¬(c = '"') ∧ ¬(c = '[') ∧ ¬(c = lbraceCh) ∧ ¬(c = ']') := by
  refine ⟨?_, ?_, ?_, ?_⟩ <;> (intro heq; subst heq; exact absurd h (by decide))

theorem intChars_head (i : Int) :
    ∃ c t, intChars i = c :: t ∧ ¬(c = '"') ∧ ¬(c = '[') ∧ ¬(c = lbraceCh) ∧ ¬(c = ']') := by
  rw [intChars]
  split
  · exact ⟨'-', _, rfl, by decide, by decide, by decide, by decide⟩
  · obtain ⟨c, t, hct, hd⟩ := natChars_head_digit i.toNat
    obtain ⟨h1, h2, h3, h4⟩ := digit_ne_delims c hd
    exact ⟨c, t, hct, h1, h2, h3, h4⟩

theorem renderJv_head (j : Jv) :
    ∃ c t, renderJv j = c :: t ∧ ¬(c = ']') := by
  cases j with
  | jstr s => exact ⟨'"', _, by rw [renderJv_str, renderStrChars], by decide⟩
  | jnum i =>
    obtain ⟨c, t, hct, _, _, _, h4⟩ := intChars_head i
    exact ⟨c, t, by rw [renderJv_num, hct], h4⟩
  | jarr es => exact ⟨'[', _, by rw [renderJv_arr], by decide⟩
  | jobj fs => exact ⟨lbraceCh, _, by rw [renderJv_obj], by decide⟩

theorem renderArr_head (e : Jv) (es : List Jv) :
    ∃ c t, renderArr (e :: es) = c :: t ∧ ¬(c = ']') := by
  obtain ⟨c, t, hct, hne⟩ := renderJv_head e
  cases es with
  | nil => exact ⟨c, t, by rw [renderArr_single, hct], hne⟩
  | cons x xs =>
    exact ⟨c, t ++ (',' :: renderArr (x :: xs)), by rw [renderArr_cons2, hct]; rfl, hne⟩

end GCR

namespace GCR

theorem renderObj_single_pair (k : String) (v : Jv) :
    renderObj [(k, v)] = renderStrChars k ++ (':' :: renderJv v) := by
  rw [renderObj_single]

theorem renderObj_cons2_pair (k : String) (v : Jv) (g : String × Jv) (gs : List (String × Jv)) :
    renderObj ((k, v) :: g :: gs)
      = renderStrChars k ++ (':' :: renderJv v) ++ (',' :: renderObj (g :: gs)) := by
  rw [renderObj_cons2]

mutual

theorem rtJv : ∀ (j : Jv) (fuel : Nat) (rest : List Char),
    (renderJv j).length < fuel → startsWithDigit rest = false →
    parseJv fuel (renderJv j ++ rest) = some (j, rest)
  | .jstr s, fuel, rest, hf, _ => by
    cases fuel with
    | zero => exact absurd hf (Nat.not_lt_zero _)
    | succ f =>
      rw [renderJv_str, renderStrChars, List.cons_append, parseJv_succ_cons, if_pos rfl,
        List.append_assoc, List.singleton_append, parseStrBody_escChars]
      simp [strMk_data]
  | .jnum i, fuel, rest, hf, hr => by
    cases fuel with
    | zero => exact absurd hf (Nat.not_lt_zero _)
    | succ f =>
      obtain ⟨c, t, hct, h1, h2, h3, _⟩ := intChars_head i
      rw [renderJv_num, hct, List.cons_append, parseJv_succ_cons, if_neg h1, if_neg h2,
        if_neg h3, ← List.cons_append, ← hct, scanInt_intChars i rest hr]
      rfl
  | .jarr [], fuel, rest, hf, _ => by
    cases fuel with
    | zero => exact absurd hf (Nat.not_lt_zero _)
    | succ f =>
      rw [renderJv_arr, renderArr_nil, List.nil_append, List.cons_append,
        List.singleton_append, parseJv_succ_cons]
      simp
  | .jarr (e :: es), fuel, rest, hf, _ => by
    cases fuel with
    | zero => exact absurd hf (Nat.not_lt_zero _)
    | succ f =>
      obtain ⟨c, t2, hct, hcne⟩ := renderArr_head e es
      have hlen : (renderArr (e :: es)).length + 1 < f := by
        rw [renderJv_arr] at hf
        simp only [List.length_cons, List.length_append, List.length_singleton] at hf
        omega
      have harr := rtArr e es f rest hlen
      rw [renderJv_arr, List.cons_append, parseJv_succ_cons, if_neg (by decide), if_pos rfl,
        List.append_assoc, List.singleton_append, hct, List.cons_append]
      simp only [hcne, if_false, ← List.cons_append, ← hct, harr]
      rfl
  | .jobj [], fuel, rest, hf, _ => by
    cases fuel with
    | zero => exact absurd hf (Nat.not_lt_zero _)
    | succ f =>
      rw [renderJv_obj, renderObj_nil, List.nil_append, List.cons_append,
        List.singleton_append, parseJv_succ_cons]
      have hq1 : ¬(lbraceCh = '"') := by decide
      have hq2 : ¬(lbraceCh = '[') := by decide
      simp [hq1, hq2]
  | .jobj (kv :: fs), fuel, rest, hf, _ => by
    cases fuel with
    | zero => exact absurd hf (Nat.not_lt_zero _)
    | succ f =>
      have hlen : (renderObj (kv :: fs)).length + 1 < f := by
        rw [renderJv_obj] at hf
        simp only [List.length_cons, List.length_append, List.length_singleton] at hf
        omega
      have hobj := rtObj kv fs f rest hlen
      have hq1 : ¬(lbraceCh = '"') := by decide
      have hq2 : ¬(lbraceCh = '[') := by decide
      have hqr : ¬('"' = rbraceCh) := by decide
      obtain ⟨k, v⟩ := kv
      have hhead : ∃ t2, renderObj ((k, v) :: fs) = '"' :: t2 := by
        cases fs with
        | nil =>
          exact ⟨_, by rw [renderObj_single_pair, renderStrChars, List.cons_append]⟩
        | cons g gs =>
          exact ⟨_, by
            rw [renderObj_cons2_pair, renderStrChars, List.cons_append, List.cons_append]⟩
      obtain ⟨t2, ht2⟩ := hhead
      rw [renderJv_obj, List.cons_append, parseJv_succ_cons, if_neg hq1, if_neg hq2,
        if_pos rfl, List.append_assoc, List.singleton_append, ht2, List.cons_append]
      simp only [hqr, if_false, ← List.cons_append, ← ht2, hobj]
      rfl

theorem rtArr : ∀ (e : Jv) (es : List Jv) (fuel : Nat) (rest : List Char),
    (renderArr (e :: es)).length + 1 < fuel →
    parseArrItems fuel (renderArr (e :: es) ++ (']' :: rest)) = some (e :: es, rest)
  | e, [], fuel, rest, hf => by
    cases fuel with
    | zero => exact absurd hf (Nat.not_lt_zero _)
    | succ f =>
      have hfe : (renderJv e).length < f := by
        rw [renderArr_single] at hf
        omega
      have hv := rtJv e f (']' :: rest) hfe (by rw [swd_cons]; decide)
      rw [renderArr_single, parseArrItems_succ, hv]
      simp
  | e, x :: xs, fuel, rest, hf => by
    cases fuel with
    | zero => exact absurd hf (Nat.not_lt_zero _)
    | succ f =>
      have hlens : (renderArr (e :: x :: xs)).length
          = (renderJv e).length + 1 + (renderArr (x :: xs)).length := by
        rw [renderArr_cons2]
        simp [List.length_append]
        omega
      have hfe : (renderJv e).length < f := by omega
      have hfx : (renderArr (x :: xs)).length + 1 < f := by omega
      have hv := rtJv e f (',' :: (renderArr (x :: xs) ++ (']' :: rest))) hfe
        (by rw [swd_cons]; decide)
      have htail := rtArr x xs f rest hfx
      rw [renderArr_cons2, parseArrItems_succ, List.append_assoc, List.cons_append, hv]
      simp [htail]

theorem rtObj : ∀ (kv : String × Jv) (fs : List (String × Jv)) (fuel : Nat) (rest : List Char),
    (renderObj (kv :: fs)).length + 1 < fuel →
    parseObjFields fuel (renderObj (kv :: fs) ++ (rbraceCh :: rest)) = some (kv :: fs, rest)
  | (k, v), [], fuel, rest, hf => by
    cases fuel with
    | zero => exact absurd hf (Nat.not_lt_zero _)
    | succ f =>
      have hfv : (renderJv v).length < f := by
        rw [renderObj_single_pair] at hf
        simp only [List.length_append, List.length_cons] at hf
        omega
      have hv := rtJv v f (rbraceCh :: rest) hfv (by rw [swd_cons]; decide)
      have hbc : ¬(rbraceCh = ',') := by decide
      rw [renderObj_single_pair, renderStrChars]
      simp only [List.cons_append, List.append_assoc, List.singleton_append]
      rw [parseObjFields_succ_cons, if_pos rfl, parseStrBody_escChars]
      simp [hv, hbc, strMk_data]
  | (k, v), g :: gs, fuel, rest, hf => by
    cases fuel with
    | zero => exact absurd hf (Nat.not_lt_zero _)
    | succ f =>
      have hlens : (renderObj ((k, v) :: g :: gs)).length
          = (renderStrChars k).length + 1 + (renderJv v).length + 1
            + (renderObj (g :: gs)).length := by
        rw [renderObj_cons2_pair]
        simp [List.length_append]
        omega
      have hfv : (renderJv v).length < f := by omega
      have hfx : (renderObj (g :: gs)).length + 1 < f := by omega
      have hv := rtJv v f (',' :: (renderObj (g :: gs) ++ (rbraceCh :: rest))) hfv
        (by rw [swd_cons]; decide)
      have htail := rtObj g gs f rest hfx
      have hcb : ¬(',' = rbraceCh) := by decide
      rw [renderObj_cons2_pair, renderStrChars]
      simp only [List.cons_append, List.append_assoc, List.singleton_append]
      rw [parseObjFields_succ_cons, if_pos rfl, parseStrBody_escChars]
      simp [hv, htail, hcb, strMk_data]

end

end GCR

namespace GCR

/-- Parsing a rendered document recovers it exactly. -/
theorem parseJsonText_renderJson (j : Jv) : parseJsonText (renderJson j) = some j := by
  rw [parseJsonText, renderJson]
  have hrt := rtJv j ((renderJv j).length + 1) [] (by omega) rfl
  rw [List.append_nil] at hrt
  have hdata : (String.mk (renderJv j)).data = renderJv j := rfl
  have hlen : (String.mk (renderJv j)).length = (renderJv j).length := rfl
  rw [hdata, hlen, hrt]

/-! ## Go `strings.TrimSpace` and the error model -/

/-- The Unicode white space predicate of Go's `unicode.IsSpace`. -/
def isGoSpace (c : Char) : Bool :=
  (c == ' ') || (c == '\t') || (c == '\n') || (c == Char.ofNat 11) ||
  (c == Char.ofNat 12) || (c == '\x0d') || (c == Char.ofNat 133) ||
  (c == Char.ofNat 160) || (c == Char.ofNat 5760) ||
  (decide (8192 ≤ c.toNat) && decide (c.toNat ≤ 8202)) ||
  (c == Char.ofNat 8232) || (c == Char.ofNat 8233) || (c == Char.ofNat 8239) ||
  (c == Char.ofNat 8287) || (c == Char.ofNat 12288)

/-- Go's `strings.TrimSpace`. -/
def goTrimSpace (s : String) : String :=
  String.mk (((s.data.dropWhile isGoSpace).reverse.dropWhile isGoSpace).reverse)

theorem goTrimSpace_mk_cons_ne (c : Char) (t : List Char) (h : isGoSpace c = false) :
    ¬(goTrimSpace (String.mk (c :: t)) = "") := by
  intro heq
  have hL : (((c :: t).dropWhile isGoSpace).reverse.dropWhile isGoSpace).reverse = [] :=
    congrArg String.data heq
  rw [List.dropWhile_cons] at hL
  rw [h] at hL
  simp only [Bool.false_eq_true, if_false, List.reverse_eq_nil_iff,
    List.dropWhile_eq_nil_iff] at hL
  have := hL c (by simp)
  rw [h] at this
  exact absurd this (by simp)

/-- The Go error values that flow through this layer: `sql.ErrNoRows`, other
driver errors, `fmt.Errorf` wrapping with `%w` (traversed by `errors.Is`), and
plain error messages. -/
inductive GoErr where
  | sqlNoRows
  | sqlOther (msg : String)
  | wrapped (msg : String) (cause : GoErr)
  | errMsg (msg : String)
deriving DecidableEq

/-- `errors.Is(err, sql.ErrNoRows)`: unwraps `%w` chains. -/
def GoErr.isNoRows : GoErr → Bool
  | .sqlNoRows => true
  | .wrapped _ c => c.isNoRows
  | _ => false

/-! ## The Codec Layer (`labelsToText` .. `resourcesFromText`)

The nested-attribute serializers of `data_access.go` delegate to
`json.Marshal`/`json.Unmarshal` from `k8s.io/apimachinery/pkg/util/json`
(plain `encoding/json` behaviour for these types); those library calls are
modelled by the verified renderer/scanner above. Go maps are modelled as
association lists in their canonical order (the strictly-sorted key order
in which `json.Marshal` emits map entries). -/

abbrev Labels := List (String × String)

/-- Canonical form of a Go `map[string]string`: strictly sorted distinct keys,
the order `json.Marshal` emits. -/
def CanonMap (m : Labels) : Prop := List.Pairwise (fun a b => a.1 < b.1) m

def labelsJv (m : Labels) : Jv := .jobj (m.map (fun kv => (kv.1, Jv.jstr kv.2)))

/-- Modelled third-party `json.Marshal`: total on the marshallable values used
by this store (maps and slices of plain strings, numbers and records). -/
def jsonMarshal (j : Jv) : Except GoErr String := .ok (renderJson j)

def optMapM (g : α → Option β) : List α → Option (List β)
  | [] => some []
  | x :: xs =>
    match g x with
    | none => none
    | some y => (optMapM g xs).map (fun ys => y :: ys)

theorem optMapM_map (g : β → Option α) (f : α → β) (h : ∀ x, g (f x) = some x)
    (l : List α) : optMapM g (l.map f) = some l := by
  induction l with
  | nil => rfl
  | cons x xs ih =>
    simp only [List.map_cons, optMapM, h x, ih]
    rfl

def labelsFromJv : Jv → Option Labels
  | .jobj fs => optMapM (fun kv => match kv.2 with
      | .jstr v => some (kv.1, v)
      | _ => none) fs
  | _ => none

/-- Modelled third-party `json.Unmarshal` into `map[string]string`. -/
def jsonUnmarshalLabels (text : String) : Except GoErr Labels :=
  match parseJsonText text with
  | none => .error (.errMsg "invalid json text")
  | some j =>
    match labelsFromJv j with
    | none => .error (.errMsg "cannot unmarshal into map of string")
    | some m => .ok m

/-- `labelsToText` of `data_access.go`: empty map short-circuits to `""`,
otherwise the JSON marshalling, errors wrapped with the offending value. -/
def labelsToText (valMap : Labels) : Except GoErr String :=
  if valMap.length = 0 then .ok ""
  else
    match jsonMarshal (labelsJv valMap) with
    | .error e => .error (GoErr.wrapped "cannot serialize labels" e)
    | .ok bytes => .ok bytes

/-- `labelsFromText` of `data_access.go`: blank text short-circuits to the zero
value with no error, otherwise JSON unmarshalling, errors wrapped. -/
def labelsFromText (textValue : String) : Except GoErr Labels :=
  if goTrimSpace textValue = "" then .ok []
  else
    match jsonUnmarshalLabels textValue with
    | .error e => .error (GoErr.wrapped "cannot de-serialize labels" e)
    | .ok labels => .ok labels

theorem labelsFromJv_labelsJv (m : Labels) : labelsFromJv (labelsJv m) = some m := by
  rw [labelsJv, labelsFromJv]
  exact optMapM_map (fun kv => match kv.2 with
      | Jv.jstr v => some (kv.1, v)
      | _ => none)
    (fun kv => (kv.1, Jv.jstr kv.2)) (fun x => rfl) m

theorem labels_roundtrip (m : Labels) (hne : m ≠ []) (t : String)
    (ht : labelsToText m = .ok t) : labelsFromText t = .ok m := by
  rw [labelsToText] at ht
  rw [if_neg (by simpa [List.length_eq_zero] using hne)] at ht
  rw [jsonMarshal] at ht
  have hteq : t = renderJson (labelsJv m) := by
    cases ht
    rfl
  subst hteq
  obtain ⟨kv, ms, rfl⟩ : ∃ kv ms, m = kv :: ms := by
    cases m with
    | nil => exact absurd rfl hne
    | cons kv ms => exact ⟨kv, ms, rfl⟩
  have hhead : renderJson (labelsJv (kv :: ms))
      = String.mk (lbraceCh :: (renderObj (((kv :: ms).map
          (fun kv => (kv.1, Jv.jstr kv.2)))) ++ [rbraceCh])) := by
    rw [renderJson, labelsJv, renderJv_obj]
  rw [labelsFromText, hhead,
    if_neg (goTrimSpace_mk_cons_ne _ _ (by decide)), ← hhead]
  rw [jsonUnmarshalLabels, parseJsonText_renderJson]
  simp [labelsFromJv_labelsJv]

end GCR

namespace GCR

/-! ## Resource lists (`corev1.ResourceList`)

A Go `map[ResourceName]resource.Quantity`; a `Quantity` marshals as its
canonical decimal string, so entries are modelled by their serialized form. -/

abbrev ResourceList := List (String × String)

def resourcesJv (m : ResourceList) : Jv :=
  .jobj (m.map (fun kv => (kv.1, Jv.jstr kv.2)))

def resourcesFromJv : Jv → Option ResourceList
  | .jobj fs => optMapM (fun kv => match kv.2 with
      | .jstr v => some (kv.1, v)
      | _ => none) fs
  | _ => none

def jsonUnmarshalResources (text : String) : Except GoErr ResourceList :=
  match parseJsonText text with
  | none => .error (.errMsg "invalid json text")
  | some j =>
    match resourcesFromJv j with
    | none => .error (.errMsg "cannot unmarshal into resource list")
    | some m => .ok m

/-- `resourcesToText` of `data_access.go`. -/
def resourcesToText (resources : ResourceList) : Except GoErr String :=
  if resources.length = 0 then .ok ""
  else
    match jsonMarshal (resourcesJv resources) with
    | .error e => .error (GoErr.wrapped "cannot serialize resources" e)
    | .ok bytes => .ok bytes

/-- `resourcesFromText` of `data_access.go`. -/
def resourcesFromText (textValue : String) : Except GoErr ResourceList :=
  if goTrimSpace textValue = "" then .ok []
  else
    match jsonUnmarshalResources textValue with
    | .error e => .error (GoErr.wrapped "cannot de-serialize resources" e)
    | .ok resources => .ok resources

theorem resourcesFromJv_resourcesJv (m : ResourceList) :
    resourcesFromJv (resourcesJv m) = some m := by
  rw [resourcesJv, resourcesFromJv]
  exact optMapM_map (fun kv => match kv.2 with
      | Jv.jstr v => some (kv.1, v)
      | _ => none)
    (fun kv => (kv.1, Jv.jstr kv.2)) (fun x => rfl) m

theorem resources_roundtrip (m : ResourceList) (hne : m ≠ []) (t : String)
    (ht : resourcesToText m = .ok t) : resourcesFromText t = .ok m := by
  rw [resourcesToText] at ht
  rw [if_neg (by simpa [List.length_eq_zero] using hne)] at ht
  rw [jsonMarshal] at ht
  have hteq : t = renderJson (resourcesJv m) := by
    cases ht
    rfl
  subst hteq
  obtain ⟨kv, ms, rfl⟩ : ∃ kv ms, m = kv :: ms := by
    cases m with
    | nil => exact absurd rfl hne
    | cons kv ms => exact ⟨kv, ms, rfl⟩
  have hhead : renderJson (resourcesJv (kv :: ms))
      = String.mk (lbraceCh :: (renderObj (((kv :: ms).map
          (fun kv => (kv.1, Jv.jstr kv.2)))) ++ [rbraceCh])) := by
    rw [renderJson, resourcesJv, renderJv_obj]
  rw [resourcesFromText, hhead,
    if_neg (goTrimSpace_mk_cons_ne _ _ (by decide)), ← hhead]
  rw [jsonUnmarshalResources, parseJsonText_renderJson]
  simp [resourcesFromJv_resourcesJv]

/-! ## Taints and tolerations (`corev1.Taint`, `corev1.Toleration`)

`corev1.Taint` marshals with fields `key`, `value,omitempty`, `effect`,
`timeAdded,omitempty` (the `metav1.Time` pointer marshals as an RFC3339 string,
modelled by its serialized form). `corev1.Toleration` marshals with all five
fields `omitempty`. `json.Unmarshal` leaves absent fields at their zero value. -/

structure Taint where
  key : String
  value : String
  effect : String
  timeAdded : Option String
deriving DecidableEq

structure Toleration where
  key : String
  operator : String
  value : String
  effect : String
  tolerationSeconds : Option Int
deriving DecidableEq

def lookupF : List (String × Jv) → String → Option Jv
  | [], _ => none
  | f :: fs, name => if f.1 = name then some f.2 else lookupF fs name

/-- Decode a string field; absent fields keep the zero value, as `json.Unmarshal`
leaves missing keys untouched. -/
def getStrF (fs : List (String × Jv)) (name : String) : Option String :=
  match lookupF fs name with
  | none => some ""
  | some (.jstr s) => some s
  | some _ => none

def getOptStrF (fs : List (String × Jv)) (name : String) : Option (Option String) :=
  match lookupF fs name with
  | none => some none
  | some (.jstr s) => some (some s)
  | some _ => none

def getIntF (fs : List (String × Jv)) (name : String) : Option Int :=
  match lookupF fs name with
  | none => some 0
  | some (.jnum i) => some i
  | some _ => none

def getOptIntF (fs : List (String × Jv)) (name : String) : Option (Option Int) :=
  match lookupF fs name with
  | none => some none
  | some (.jnum i) => some (some i)
  | some _ => none

def getStrListF (fs : List (String × Jv)) (name : String) : Option (List String) :=
  match lookupF fs name with
  | none => some []
  | some (.jarr es) => optMapM (fun e => match e with
      | Jv.jstr s => some s
      | _ => none) es
  | some _ => none

def taintJv (t : Taint) : Jv :=
  .jobj ([("key", Jv.jstr t.key)]
    ++ (if t.value = "" then [] else [("value", Jv.jstr t.value)])
    ++ [("effect", Jv.jstr t.effect)]
    ++ (match t.timeAdded with
        | none => []
        | some ts => [("timeAdded", Jv.jstr ts)]))

def taintOfJv : Jv → Option Taint
  | .jobj fs =>
    match getStrF fs "key", getStrF fs "value", getStrF fs "effect",
        getOptStrF fs "timeAdded" with
    | some k, some v, some e, some ta => some ⟨k, v, e, ta⟩
    | _, _, _, _ => none
  | _ => none

theorem taintOfJv_taintJv (t : Taint) : taintOfJv (taintJv t) = some t := by
  obtain ⟨k, v, e, ta⟩ := t
  by_cases hv : v = "" <;> cases ta <;>
    simp [taintJv, taintOfJv, getStrF, getOptStrF, lookupF, hv]

def tolerationJv (t : Toleration) : Jv :=
  .jobj ((if t.key = "" then [] else [("key", Jv.jstr t.key)])
    ++ (if t.operator = "" then [] else [("operator", Jv.jstr t.operator)])
    ++ (if t.value = "" then [] else [("value", Jv.jstr t.value)])
    ++ (if t.effect = "" then [] else [("effect", Jv.jstr t.effect)])
    ++ (match t.tolerationSeconds with
        | none => []
        | some s => [("tolerationSeconds", Jv.jnum s)]))

def tolerationOfJv : Jv → Option Toleration
  | .jobj fs =>
    match getStrF fs "key", getStrF fs "operator", getStrF fs "value",
        getStrF fs "effect", getOptIntF fs "tolerationSeconds" with
    | some k, some o, some v, some e, some ts => some ⟨k, o, v, e, ts⟩
    | _, _, _, _, _ => none
  | _ => none

theorem tolerationOfJv_tolerationJv (t : Toleration) :
    tolerationOfJv (tolerationJv t) = some t := by
  obtain ⟨k, o, v, e, ts⟩ := t
  by_cases hk : k = "" <;> by_cases ho : o = "" <;> by_cases hv : v = "" <;>
    by_cases he : e = "" <;> cases ts <;>
    simp [tolerationJv, tolerationOfJv, getStrF, getOptIntF, lookupF, hk, ho, hv, he]

end GCR

namespace GCR

/-! ## Topology spread constraints (`corev1.TopologySpreadConstraint`)

Marshals with required `maxSkew`, `topologyKey`, `whenUnsatisfiable` and
`omitempty` pointer/slice fields; the `metav1.LabelSelector` nests a label map
and a requirement list, both `omitempty`. -/

structure LabelSelectorReq where
  key : String
  operator : String
  values : List String
deriving DecidableEq

structure LabelSelector where
  matchLabels : Labels
  matchExpressions : List LabelSelectorReq
deriving DecidableEq

structure TopoSpreadConstraint where
  maxSkew : Int
  topologyKey : String
  whenUnsatisfiable : String
  labelSelector : Option LabelSelector
  minDomains : Option Int
  nodeAffinityPolicy : Option String
  nodeTaintsPolicy : Option String
  matchLabelKeys : List String
deriving DecidableEq

def lsReqJv (r : LabelSelectorReq) : Jv :=
  .jobj ([("key", Jv.jstr r.key), ("operator", Jv.jstr r.operator)]
    ++ (if r.values = [] then [] else [("values", Jv.jarr (r.values.map Jv.jstr))]))

def lsReqOfJv : Jv → Option LabelSelectorReq
  | .jobj fs =>
    match getStrF fs "key", getStrF fs "operator", getStrListF fs "values" with
    | some k, some o, some vs => some ⟨k, o, vs⟩
    | _, _, _ => none
  | _ => none

theorem lsReqOfJv_lsReqJv (r : LabelSelectorReq) : lsReqOfJv (lsReqJv r) = some r := by
  obtain ⟨k, o, vs⟩ := r
  have hstrs := optMapM_map (fun e => match e with
      | Jv.jstr s => some s
      | _ => none) Jv.jstr (fun x => rfl) vs
  by_cases hv : vs = [] <;>
    simp [lsReqJv, lsReqOfJv, getStrF, getStrListF, lookupF, hv, hstrs]

def labelSelJv (s : LabelSelector) : Jv :=
  .jobj ((if s.matchLabels = [] then []
          else [("matchLabels", labelsJv s.matchLabels)])
    ++ (if s.matchExpressions = [] then []
        else [("matchExpressions", Jv.jarr (s.matchExpressions.map lsReqJv))]))

def getLabelsF (fs : List (String × Jv)) (name : String) : Option Labels :=
  match lookupF fs name with
  | none => some []
  | some j => labelsFromJv j

def getLsReqListF (fs : List (String × Jv)) (name : String) :
    Option (List LabelSelectorReq) :=
  match lookupF fs name with
  | none => some []
  | some (.jarr es) => optMapM lsReqOfJv es
  | some _ => none

def labelSelOfJv : Jv → Option LabelSelector
  | .jobj fs =>
    match getLabelsF fs "matchLabels", getLsReqListF fs "matchExpressions" with
    | some ml, some me => some ⟨ml, me⟩
    | _, _ => none
  | _ => none

theorem labelSelOfJv_labelSelJv (s : LabelSelector) :
    labelSelOfJv (labelSelJv s) = some s := by
  obtain ⟨ml, me⟩ := s
  have hreqs := optMapM_map lsReqOfJv lsReqJv lsReqOfJv_lsReqJv me
  by_cases hml : ml = [] <;> by_cases hme : me = [] <;>
    simp [labelSelJv, labelSelOfJv, getLabelsF, getLsReqListF, lookupF, hml, hme,
      labelsFromJv_labelsJv, hreqs]

def getOptSelF (fs : List (String × Jv)) (name : String) :
    Option (Option LabelSelector) :=
  match lookupF fs name with
  | none => some none
  | some j => (labelSelOfJv j).map some

def tscJv (t : TopoSpreadConstraint) : Jv :=
  .jobj ([("maxSkew", Jv.jnum t.maxSkew), ("topologyKey", Jv.jstr t.topologyKey),
      ("whenUnsatisfiable", Jv.jstr t.whenUnsatisfiable)]
    ++ (match t.labelSelector with
        | none => []
        | some s => [("labelSelector", labelSelJv s)])
    ++ (match t.minDomains with
        | none => []
        | some i => [("minDomains", Jv.jnum i)])
    ++ (match t.nodeAffinityPolicy with
        | none => []
        | some p => [("nodeAffinityPolicy", Jv.jstr p)])
    ++ (match t.nodeTaintsPolicy with
        | none => []
        | some p => [("nodeTaintsPolicy", Jv.jstr p)])
    ++ (if t.matchLabelKeys = [] then []
        else [("matchLabelKeys", Jv.jarr (t.matchLabelKeys.map Jv.jstr))]))

def tscOfJv : Jv → Option TopoSpreadConstraint
  | .jobj fs =>
    match getIntF fs "maxSkew", getStrF fs "topologyKey",
        getStrF fs "whenUnsatisfiable", getOptSelF fs "labelSelector",
        getOptIntF fs "minDomains", getOptStrF fs "nodeAffinityPolicy",
        getOptStrF fs "nodeTaintsPolicy", getStrListF fs "matchLabelKeys" with
    | some ms, some tk, some wu, some ls, some md, some nap, some ntp, some mlk =>
        some ⟨ms, tk, wu, ls, md, nap, ntp, mlk⟩
    | _, _, _, _, _, _, _, _ => none
  | _ => none

theorem tscOfJv_tscJv (t : TopoSpreadConstraint) : tscOfJv (tscJv t) = some t := by
  obtain ⟨ms, tk, wu, ls, md, nap, ntp, mlk⟩ := t
  have hstrs := optMapM_map (fun e => match e with
      | Jv.jstr s => some s
      | _ => none) Jv.jstr (fun x => rfl) mlk
  cases ls <;> cases md <;> cases nap <;> cases ntp <;> by_cases hk : mlk = [] <;>
    simp [tscJv, tscOfJv, getIntF, getStrF, getOptSelF, getOptIntF, getOptStrF,
      getStrListF, lookupF, hk, hstrs, labelSelOfJv_labelSelJv]

end GCR

namespace GCR

def taintsJv (l : List Taint) : Jv := .jarr (l.map taintJv)

def taintsFromJv : Jv → Option (List Taint)
  | .jarr es => optMapM taintOfJv es
  | _ => none

def jsonUnmarshalTaints (text : String) : Except GoErr (List Taint) :=
  match parseJsonText text with
  | none => .error (.errMsg "invalid json text")
  | some j =>
    match taintsFromJv j with
    | none => .error (.errMsg "cannot unmarshal into taint slice")
    | some l => .ok l

/-- `taintsToText` of `data_access.go`. -/
def taintsToText (taints : List Taint) : Except GoErr String :=
  if taints.length = 0 then .ok ""
  else
    match jsonMarshal (taintsJv taints) with
    | .error e => .error (GoErr.wrapped "cannot serialize taints" e)
    | .ok bytes => .ok bytes

/-- `taintsFromText` of `data_access.go`. -/
def taintsFromText (textValue : String) : Except GoErr (List Taint) :=
  if goTrimSpace textValue = "" then .ok []
  else
    match jsonUnmarshalTaints textValue with
    | .error e => .error (GoErr.wrapped "cannot de-serialize taints" e)
    | .ok taints => .ok taints

theorem taints_roundtrip (l : List Taint) (hne : l ≠ []) (t : String)
    (ht : taintsToText l = .ok t) : taintsFromText t = .ok l := by
  rw [taintsToText] at ht
  rw [if_neg (by simpa [List.length_eq_zero] using hne), jsonMarshal] at ht
  have hteq : t = renderJson (taintsJv l) := by
    cases ht
    rfl
  subst hteq
  have hhead : renderJson (taintsJv l)
      = String.mk ('[' :: (renderArr (l.map taintJv) ++ [']'])) := by
    rw [renderJson, taintsJv, renderJv_arr]
  rw [taintsFromText, hhead, if_neg (goTrimSpace_mk_cons_ne _ _ (by decide)), ← hhead]
  rw [jsonUnmarshalTaints, parseJsonText_renderJson]
  simp [taintsFromJv, taintsJv, optMapM_map taintOfJv taintJv taintOfJv_taintJv]

def tolerationsJv (l : List Toleration) : Jv := .jarr (l.map tolerationJv)

def tolerationsFromJv : Jv → Option (List Toleration)
  | .jarr es => optMapM tolerationOfJv es
  | _ => none

def jsonUnmarshalTolerations (text : String) : Except GoErr (List Toleration) :=
  match parseJsonText text with
  | none => .error (.errMsg "invalid json text")
  | some j =>
    match tolerationsFromJv j with
    | none => .error (.errMsg "cannot unmarshal into toleration slice")
    | some l => .ok l

/-- `tolerationsToText` of `data_access.go`. -/
def tolerationsToText (tolerations : List Toleration) : Except GoErr String :=
  if tolerations.length = 0 then .ok ""
  else
    match jsonMarshal (tolerationsJv tolerations) with
    | .error e => .error (GoErr.wrapped "cannot serialize tolerations" e)
    | .ok bytes => .ok bytes

/-- `tolerationsFromText` of `data_access.go`. -/
def tolerationsFromText (textValue : String) : Except GoErr (List Toleration) :=
  if goTrimSpace textValue = "" then .ok []
  else
    match jsonUnmarshalTolerations textValue with
    | .error e => .error (GoErr.wrapped "cannot de-serialize tolerations" e)
    | .ok tolerations => .ok tolerations

theorem tolerations_roundtrip (l : List Toleration) (hne : l ≠ []) (t : String)
    (ht : tolerationsToText l = .ok t) : tolerationsFromText t = .ok l := by
  rw [tolerationsToText] at ht
  rw [if_neg (by simpa [List.length_eq_zero] using hne), jsonMarshal] at ht
  have hteq : t = renderJson (tolerationsJv l) := by
    cases ht
    rfl
  subst hteq
  have hhead : renderJson (tolerationsJv l)
      = String.mk ('[' :: (renderArr (l.map tolerationJv) ++ [']'])) := by
    rw [renderJson, tolerationsJv, renderJv_arr]
  rw [tolerationsFromText, hhead, if_neg (goTrimSpace_mk_cons_ne _ _ (by decide)), ← hhead]
  rw [jsonUnmarshalTolerations, parseJsonText_renderJson]
  simp [tolerationsFromJv, tolerationsJv,
    optMapM_map tolerationOfJv tolerationJv tolerationOfJv_tolerationJv]

def tscListJv (l : List TopoSpreadConstraint) : Jv := .jarr (l.map tscJv)

def tscListFromJv : Jv → Option (List TopoSpreadConstraint)
  | .jarr es => optMapM tscOfJv es
  | _ => none

def jsonUnmarshalTsc (text : String) : Except GoErr (List TopoSpreadConstraint) :=
  match parseJsonText text with
  | none => .error (.errMsg "invalid json text")
  | some j =>
    match tscListFromJv j with
    | none => .error (.errMsg "cannot unmarshal into constraint slice")
    | some l => .ok l

/-- `tscToText` of `data_access.go`. -/
def tscToText (tsc : List TopoSpreadConstraint) : Except GoErr String :=
  if tsc.length = 0 then .ok ""
  else
    match jsonMarshal (tscListJv tsc) with
    | .error e => .error (GoErr.wrapped "cannot serialize TopologySpreadConstraints" e)
    | .ok bytes => .ok bytes

/-- `tscFromText` of `data_access.go`. -/
def tscFromText (textValue : String) : Except GoErr (List TopoSpreadConstraint) :=
  if goTrimSpace textValue = "" then .ok []
  else
    match jsonUnmarshalTsc textValue with
    | .error e => .error (GoErr.wrapped "cannot de-serialize TopologySpreadConstraints" e)
    | .ok tsc => .ok tsc

theorem tsc_roundtrip (l : List TopoSpreadConstraint) (hne : l ≠ []) (t : String)
    (ht : tscToText l = .ok t) : tscFromText t = .ok l := by
  rw [tscToText] at ht
  rw [if_neg (by simpa [List.length_eq_zero] using hne), jsonMarshal] at ht
  have hteq : t = renderJson (tscListJv l) := by
    cases ht
    rfl
  subst hteq
  have hhead : renderJson (tscListJv l)
      = String.mk ('[' :: (renderArr (l.map tscJv) ++ [']'])) := by
    rw [renderJson, tscListJv, renderJv_arr]
  rw [tscFromText, hhead, if_neg (goTrimSpace_mk_cons_ne _ _ (by decide)), ← hhead]
  rw [jsonUnmarshalTsc, parseJsonText_renderJson]
  simp [tscListFromJv, tscListJv, optMapM_map tscOfJv tscJv tscOfJv_tscJv]

/-- Modelled third-party `corev1.PodSpec`: represented by the JSON document
`json.Marshal` produces for it; the store only ever passes the document through
the codec, never inspecting its fields. -/
def PodSpec := Jv

/-- `specToJson` of `data_access.go`: no empty-guard, the document is always
marshalled. -/
def specToJson (podSpec : PodSpec) : Except GoErr String :=
  match jsonMarshal podSpec with
  | .error e => .error (GoErr.wrapped "cannot serialize podSpec" e)
  | .ok bytes => .ok bytes

/-- `speccFromJson` of `data_access.go`: blank text yields the zero document. -/
def speccFromJson (jsonVal : String) : Except GoErr PodSpec :=
  if goTrimSpace jsonVal = "" then .ok (Jv.jobj [])
  else
    match parseJsonText jsonVal with
    | none => .error (GoErr.wrapped "cannot de-serialize podSpec" (.errMsg "invalid json text"))
    | some j => .ok j

end GCR

namespace GCR

/-! ## The store model

`time.Time` carries an instant (milliseconds) and a zone offset; `UTC()`
normalizes the zone without moving the instant, `UnixMilli()` reads the
instant. Statement parameters are driver values: an integer, text, a raw
`time.Time` handed to the driver, or NULL. -/

structure GoTime where
  millis : Int
  offsetMin : Int
deriving DecidableEq

def GoTime.utc (t : GoTime) : GoTime := ⟨t.millis, 0⟩

def GoTime.unixMilli (t : GoTime) : Int := t.millis

inductive SqlValue where
  | int (i : Int)
  | text (s : String)
  | time (t : GoTime)
  | null
deriving DecidableEq

/-- `adjustParam` of `data_access.go`: a `time.Time` parameter becomes its
UTC millisecond instant; anything else is passed through. -/
def adjustParam (p : SqlValue) : SqlValue :=
  match p with
  | .time t => .int t.utc.unixMilli
  | _ => p

inductive ExecOutcome where
  | success
  | failure (e : GoErr)
deriving DecidableEq

/-- An append-only SQLite table: rowids are assigned sequentially from 1
(nothing is ever hard-deleted in this store). -/
structure Table (ρ : Type) where
  rows : List (Int × ρ)

/-- A successful INSERT appends one row and reports its rowid as
`LastInsertId`; a failed statement leaves the table unchanged — a single
SQLite statement is atomic. -/
def Table.insertRow (t : Table ρ) (r : ρ) : Table ρ × Int :=
  (⟨t.rows ++ [((t.rows.length : Int) + 1, r)]⟩, (t.rows.length : Int) + 1)

def execInsert (o : ExecOutcome) (t : Table ρ) (r : ρ) :
    Except GoErr (Table ρ × Int) :=
  match o with
  | .success => .ok (t.insertRow r)
  | .failure e => .error e

/-- `intstr.IntOrString`, only observed through its `String()` form here. -/
inductive IntOrString where
  | ofInt (i : Int)
  | ofStr (s : String)
deriving DecidableEq

def IntOrString.goString : IntOrString → String
  | .ofInt i => String.mk (intChars i)
  | .ofStr s => s

/-! ## Domain objects (`gcr` package) and the bound rows of each INSERT -/

structure MachineDeploymentInfo where
  snapshotTimestamp : GoTime
  creationTimestamp : GoTime
  name : String
  namespaceName : String
  replicas : Int
  poolName : String
  zone : String
  maxSurge : IntOrString
  maxUnavailable : IntOrString
  machineClassName : String
  hash : String
deriving DecidableEq

def MachineDeploymentInfo.withHash (m : MachineDeploymentInfo) (h : String) :
    MachineDeploymentInfo :=
  ⟨m.snapshotTimestamp, m.creationTimestamp, m.name, m.namespaceName, m.replicas,
   m.poolName, m.zone, m.maxSurge, m.maxUnavailable, m.machineClassName, h⟩

structure WorkerPoolInfo where
  snapshotTimestamp : GoTime
  creationTimestamp : GoTime
  name : String
  namespaceName : String
  machineType : String
  architecture : String
  minimum : Int
  maximum : Int
  maxSurge : IntOrString
  maxUnavailable : IntOrString
  zones : List String
  hash : String
deriving DecidableEq

def WorkerPoolInfo.withHash (w : WorkerPoolInfo) (h : String) : WorkerPoolInfo :=
  ⟨w.snapshotTimestamp, w.creationTimestamp, w.name, w.namespaceName, w.machineType,
   w.architecture, w.minimum, w.maximum, w.maxSurge, w.maxUnavailable, w.zones, h⟩

structure PodInfo where
  snapshotTimestamp : GoTime
  creationTimestamp : GoTime
  name : String
  namespaceName : String
  uid : String
  nodeName : String
  nominatedNodeName : String
  labels : Labels
  requests : ResourceList
  spec : PodSpec
  podScheduleStatus : Int
  hash : String

def PodInfo.withHash (p : PodInfo) (h : String) : PodInfo :=
  ⟨p.snapshotTimestamp, p.creationTimestamp, p.name, p.namespaceName, p.uid,
   p.nodeName, p.nominatedNodeName, p.labels, p.requests, p.spec,
   p.podScheduleStatus, h⟩

structure NodeInfo where
  snapshotTimestamp : GoTime
  creationTimestamp : GoTime
  name : String
  namespaceName : String
  providerID : String
  allocatableVolumes : Int
  labels : Labels
  taints : List Taint
  allocatable : ResourceList
  capacity : ResourceList
  hash : String
deriving DecidableEq

def NodeInfo.withHash (n : NodeInfo) (h : String) : NodeInfo :=
  ⟨n.snapshotTimestamp, n.creationTimestamp, n.name, n.namespaceName, n.providerID,
   n.allocatableVolumes, n.labels, n.taints, n.allocatable, n.capacity, h⟩

def NodeInfo.withLabels (n : NodeInfo) (m : Labels) : NodeInfo :=
  ⟨n.snapshotTimestamp, n.creationTimestamp, n.name, n.namespaceName, n.providerID,
   n.allocatableVolumes, m, n.taints, n.allocatable, n.capacity, n.hash⟩

structure CASettingsInfo where
  expander : String
  maxNodesTotal : Int
  priorities : String
  hash : String
deriving DecidableEq

structure McdRow where
  creationTimestamp : Int
  snapshotTimestamp : Int
  name : String
  namespaceName : String
  replicas : Int
  poolName : String
  zone : String
  maxSurge : String
  maxUnavailable : String
  machineClassName : String
  hash : String
deriving DecidableEq

structure WorkerPoolRow where
  creationTimestamp : Int
  snapshotTimestamp : Int
  name : String
  namespaceName : String
  machineType : String
  architecture : String
  minimum : Int
  maximum : Int
  maxSurge : String
  maxUnavailable : String
  zones : String
  hash : String
deriving DecidableEq

structure PodRow where
  creationTimestamp : Int
  snapshotTimestamp : Int
  name : String
  namespaceName : String
  uid : String
  nodeName : String
  nominatedNodeName : String
  labels : String
  requests : String
  spec : String
  podScheduleStatus : Int
  hash : String
deriving DecidableEq

structure NodeRow where
  creationTimestamp : Int
  snapshotTimestamp : Int
  name : String
  namespaceName : String
  providerID : String
  allocatableVolumes : Int
  labels : String
  taints : String
  allocatable : String
  capacity : String
  hash : String
deriving DecidableEq

/-! ## Store operations -/

/-- The tuple `StoreMachineDeploymentInfo` binds, in `Exec` argument order;
both timestamps are normalized to UTC milliseconds, the surge fields bound via
`String()`. -/
def mcdBoundRow (m : MachineDeploymentInfo) : McdRow :=
  ⟨m.creationTimestamp.utc.unixMilli, m.snapshotTimestamp.utc.unixMilli,
   m.name, m.namespaceName, m.replicas, m.poolName, m.zone,
   m.maxSurge.goString, m.maxUnavailable.goString, m.machineClassName, m.hash⟩

/-- `StoreMachineDeploymentInfo` of `data_access.go`: computes the hash when
unset, executes the insert and returns `LastInsertId`; on failure the named
`rowID` return keeps its zero value and the error is returned. -/
def StoreMachineDeploymentInfo (getHash : MachineDeploymentInfo → String)
    (o : ExecOutcome) (tbl : Table McdRow) (m0 : MachineDeploymentInfo) :
    (Int × Option GoErr) × Table McdRow :=
  let m := if m0.hash = "" then m0.withHash (getHash m0) else m0
  match execInsert o tbl (mcdBoundRow m) with
  | .error e => ((0, some e), tbl)
  | .ok (tbl2, rowID) => ((rowID, none), tbl2)

def workerPoolBoundRow (w : WorkerPoolInfo) : WorkerPoolRow :=
  ⟨w.creationTimestamp.utc.unixMilli, w.snapshotTimestamp.utc.unixMilli,
   w.name, w.namespaceName, w.machineType, w.architecture, w.minimum, w.maximum,
   w.maxSurge.goString, w.maxUnavailable.goString,
   String.intercalate " " w.zones, w.hash⟩

/-- `StoreWorkerPoolInfo` of `data_access.go`. -/
def StoreWorkerPoolInfo (getHash : WorkerPoolInfo → String)
    (o : ExecOutcome) (tbl : Table WorkerPoolRow) (w0 : WorkerPoolInfo) :
    (Int × Option GoErr) × Table WorkerPoolRow :=
  let w := if w0.hash = "" then w0.withHash (getHash w0) else w0
  match execInsert o tbl (workerPoolBoundRow w) with
  | .error e => ((0, some e), tbl)
  | .ok (tbl2, rowID) => ((rowID, none), tbl2)

def podBoundRow (p : PodInfo) (labelsText requestsText specText : String) : PodRow :=
  ⟨p.creationTimestamp.utc.unixMilli, p.snapshotTimestamp.utc.unixMilli,
   p.name, p.namespaceName, p.uid, p.nodeName, p.nominatedNodeName,
   labelsText, requestsText, specText, p.podScheduleStatus, p.hash⟩

/-- `StorePodInfo` of `data_access.go`: hash-if-unset, three encodes that each
return `(-1, err)` on failure before anything touches the table, then the
single insert statement; its `LastInsertId` is returned on success. -/
def StorePodInfo (getHash : PodInfo → String) (o : ExecOutcome)
    (tbl : Table PodRow) (p0 : PodInfo) : (Int × Option GoErr) × Table PodRow :=
  let p := if p0.hash = "" then p0.withHash (getHash p0) else p0
  match labelsToText p.labels with
  | .error e => ((-1, some e), tbl)
  | .ok labelsText =>
    match resourcesToText p.requests with
    | .error e => ((-1, some e), tbl)
    | .ok requestsText =>
      match specToJson p.spec with
      | .error e => ((-1, some e), tbl)
      | .ok specText =>
        match execInsert o tbl (podBoundRow p labelsText requestsText specText) with
        | .error e => ((-1, some (GoErr.wrapped "could not persist podinfo" e)), tbl)
        | .ok (tbl2, rowID) => ((rowID, none), tbl2)

def mcmLastAppliedKey : String :=
  "node.machine.sapcloud.io/last-applied-anno-labels-taints"

/-- Go's `delete(m, k)` on a string map, on the canonical association list. -/
def eraseLabelKey (m : Labels) (k : String) : Labels :=
  m.filter (fun kv => kv.1 != k)

def nodeBoundRow (n : NodeInfo)
    (labelsText taintsText allocatableText capacityText : String) : NodeRow :=
  ⟨n.creationTimestamp.utc.unixMilli, n.snapshotTimestamp.utc.unixMilli,
   n.name, n.namespaceName, n.providerID, n.allocatableVolumes,
   labelsText, taintsText, allocatableText, capacityText, n.hash⟩

/-- `StoreNodeInfo` of `data_access.go`: computes the hash when unset, then
deletes the MCM bookkeeping label from the (caller-shared) label map, encodes
the nested fields and executes the insert, discarding the `sql.Result`; the
named `rowID` return is never assigned, so every call returns rowID `0`. The
final `Labels` component models the caller's map after the call — Go maps are
reference values, the `delete` is visible to the caller. -/
def StoreNodeInfo (getHash : NodeInfo → String) (o : ExecOutcome)
    (tbl : Table NodeRow) (n0 : NodeInfo) :
    ((Int × Option GoErr) × Table NodeRow) × Labels :=
  let n1 := if n0.hash = "" then n0.withHash (getHash n0) else n0
  let n := n1.withLabels (eraseLabelKey n1.labels mcmLastAppliedKey)
  match labelsToText n.labels with
  | .error e => (((0, some e), tbl), n.labels)
  | .ok labelsText =>
    match taintsToText n.taints with
    | .error e => (((0, some e), tbl), n.labels)
    | .ok taintsText =>
      match resourcesToText n.allocatable with
      | .error e => (((0, some e), tbl), n.labels)
      | .ok allocatableText =>
        match resourcesToText n.capacity with
        | .error e => (((0, some e), tbl), n.labels)
        | .ok capacityText =>
          match execInsert o tbl
              (nodeBoundRow n labelsText taintsText allocatableText capacityText) with
          | .error e => (((0, some e), tbl), n.labels)
          | .ok (tbl2, _) => (((0, none), tbl2), n.labels)

end GCR

namespace GCR

/-! ## Deletion-timestamp updates: the parameters each `Exec` call binds -/

/-- `UpdatePodDeletionTimestamp` binds
`Exec(deletionTimestamp.UTC().UnixMilli(), podUID)`. -/
def UpdatePodDeletionTimestampBound (podUID : String) (deletionTimestamp : GoTime) :
    List SqlValue :=
  [.int deletionTimestamp.utc.unixMilli, .text podUID]

/-- `UpdateNodeInfoDeletionTimestamp` binds `Exec(deletionTimestamp, name)` —
the raw `time.Time` value, with no normalization. -/
def UpdateNodeInfoDeletionTimestampBound (name : String) (deletionTimestamp : GoTime) :
    List SqlValue :=
  [.time deletionTimestamp, .text name]

/-- `UpdateMCDInfoDeletionTimestamp` binds `Exec(deletionTimestamp, name)` —
the raw `time.Time` value, with no normalization. -/
def UpdateMCDInfoDeletionTimestampBound (name : String) (deletionTimestamp : GoTime) :
    List SqlValue :=
  [.time deletionTimestamp, .text name]

/-! ## Dedup count lookups -/

/-- What `QueryRow(..).Scan(&count)` can produce for a `sql.NullInt32` target:
a scanned value (NULL leaves it invalid), or a scan error — `sql.ErrNoRows`
when the query yields no rows. -/
inductive ScanOneOutcome where
  | value (v : Option Int)
  | scanErr (e : GoErr)
deriving DecidableEq

/-- `CountPodInfoWithSpecHash` of `data_access.go`: a valid count is returned
as-is; `errors.Is(err, sql.ErrNoRows)` maps the no-rows case to `(-1, nil)`;
any other scan error propagates as `(-1, err)`; an invalid (NULL) count with a
nil error also falls through to `(-1, nil)`. -/
def CountPodInfoWithSpecHash (uid hash : String) (o : ScanOneOutcome) :
    Int × Option GoErr :=
  match o with
  | .value (some c) => (c, none)
  | .value none => (-1, none)
  | .scanErr e => if e.isNoRows then (-1, none) else (-1, some e)

/-- `CountNodeInfoWithHash` of `data_access.go`: same shape as the pod count. -/
def CountNodeInfoWithHash (name hash : String) (o : ScanOneOutcome) :
    Int × Option GoErr :=
  match o with
  | .value (some c) => (c, none)
  | .value none => (-1, none)
  | .scanErr e => if e.isNoRows then (-1, none) else (-1, some e)

/-! ## Generic query primitives -/

/-- What a prepared statement's `Query` plus `scan.Rows` can produce: the
scanned row list, a query failure, or a scan failure. -/
inductive RowsOutcome (ρ : Type) where
  | rows (rs : List ρ)
  | queryFail (e : GoErr)
  | scanFail (e : GoErr)

def exceptMapM (g : ρ → Except GoErr ι) : List ρ → Except GoErr (List ι)
  | [] => .ok []
  | r :: rs =>
    match g r with
    | .error e => .error e
    | .ok i => (exceptMapM g rs).map (fun is => i :: is)

/-- `queryAndMapToInfos` of `data_access.go`: adjusts every parameter through
`adjustParam`, queries and scans, reports `sql.ErrNoRows` on zero rows, and
maps each row through `AsInfo`, propagating the first failure. -/
def queryAndMapToInfos (stmtSem : List SqlValue → RowsOutcome ρ)
    (asInfo : ρ → Except GoErr ι) (params : List SqlValue) :
    Except GoErr (List ι) :=
  let adjustedParams := params.map adjustParam
  match stmtSem adjustedParams with
  | .queryFail e => .error e
  | .scanFail e => .error e
  | .rows rs =>
    if rs.length = 0 then .error GoErr.sqlNoRows
    else exceptMapM asInfo rs

/-- `queryAndMapToInfo` of `data_access.go`: binds its parameters with no
adjustment; `scan.Row` yields `sql.ErrNoRows` on an empty result (the
`blockloop/scan` contract), and the method wraps any scan error with
"could not find rows for statement" before returning it. -/
def queryAndMapToInfo (stmtSem : List SqlValue → RowsOutcome ρ)
    (asInfo : ρ → Except GoErr ι) (params : List SqlValue) : Except GoErr ι :=
  match stmtSem params with
  | .queryFail e => .error e
  | .scanFail e => .error (GoErr.wrapped "could not find rows for statement" e)
  | .rows [] => .error (GoErr.wrapped "could not find rows for statement" GoErr.sqlNoRows)
  | .rows (r :: _) => asInfo r

/-- Modelled from the spec: the SQL text `SelectLatestMCDInfo` is not under
`src/`; per spec §4.4 `LoadLatest(key)` selects the most recently inserted row
whose name matches the key. -/
def selectLatestMCDInfoSem (tbl : Table McdRow) (params : List SqlValue) :
    RowsOutcome McdRow :=
  match params with
  | [.text name] =>
    .rows ((((tbl.rows.filter (fun r => r.2.name == name)).map Prod.snd).reverse).take 1)
  | _ => .queryFail (.errMsg "invalid parameters")

/-- Modelled from the spec (§4.3): a row's `AsInfo` converts the stored
millisecond integers back to timestamp values; for `mcdRow` every other column
is a scalar copied across, the surge fields in their string forms. -/
def mcdRowAsInfo (r : McdRow) : Except GoErr MachineDeploymentInfo :=
  .ok ⟨⟨r.snapshotTimestamp, 0⟩, ⟨r.creationTimestamp, 0⟩, r.name, r.namespaceName,
    r.replicas, r.poolName, r.zone, .ofStr r.maxSurge, .ofStr r.maxUnavailable,
    r.machineClassName, r.hash⟩

/-- `LoadLatestMachineDeploymentInfo` of `data_access.go`. -/
def LoadLatestMachineDeploymentInfo (tbl : Table McdRow) (name : String) :
    Except GoErr MachineDeploymentInfo :=
  queryAndMapToInfo (selectLatestMCDInfoSem tbl) mcdRowAsInfo [.text name]

/-! ## CA deployment lookups -/

/-- `database/sql` checks a prepared statement's argument count against the
driver's `NumInput` before executing, failing the query on a mismatch. -/
def stmtQuery (numInput : Nat) (sem : List SqlValue → RowsOutcome ρ)
    (args : List SqlValue) : RowsOutcome ρ :=
  if args.length = numInput then sem args
  else .queryFail (.errMsg "sql: statement argument count mismatch")

/-- Modelled from the spec: the SQL text `SelectLatestCADeployment` is not
under `src/`; it is the parameterless latest-row query over
`ca_settings_info` — its use in `GetLatestCADeployment` passes no arguments. -/
def selectLatestCADeploymentSem (tbl : Table CASettingsInfo) :
    List SqlValue → RowsOutcome CASettingsInfo :=
  stmtQuery 0 (fun _ => .rows (((tbl.rows.map Prod.snd).reverse).take 1))

/-- `GetLatestCADeployment` of `data_access.go`: queries with no arguments;
zero rows is reported as a `nil, nil` success. -/
def GetLatestCADeployment (tbl : Table CASettingsInfo) :
    Option CASettingsInfo × Option GoErr :=
  match selectLatestCADeploymentSem tbl [] with
  | .queryFail e => (none, some e)
  | .scanFail e => (none, some e)
  | .rows rs =>
    match rs with
    | [] => (none, none)
    | r :: _ => (some r, none)

/-- `GetCADeploymentWithHash` of `data_access.go`: the Go method queries the
`selectLatestCADeployment` prepared statement — not `selectCADeploymentByHash`,
which is prepared at Init and never used — passing the hash as an argument. -/
def GetCADeploymentWithHash (tbl : Table CASettingsInfo) (hash : String) :
    Option CASettingsInfo × Option GoErr :=
  match selectLatestCADeploymentSem tbl [.text hash] with
  | .queryFail e => (none, some e)
  | .scanFail e => (none, some e)
  | .rows rs =>
    match rs with
    | [] => (none, none)
    | r :: _ => (some r, none)

/-! ## The facade lifecycle -/

structure DBConn where
  closeOutcome : Option GoErr
deriving DecidableEq

structure DataAccess where
  dataDB : Option DBConn
deriving DecidableEq

/-- `Close` of `data_access.go`: a nil handle returns nil immediately; a
failing underlying close returns the error and keeps the handle; a successful
close clears the handle and returns nil. -/
def DataAccess.close (d : DataAccess) : Option GoErr × DataAccess :=
  match d.dataDB with
  | none => (none, d)
  | some db =>
    match db.closeOutcome with
    | some e => (some e, d)
    | none => (none, ⟨none⟩)

end GCR

namespace GCR

/-! ## Helper evaluation lemmas: every encode is total -/

def labelsTextVal (m : Labels) : String :=
  if m.length = 0 then "" else renderJson (labelsJv m)

theorem labelsToText_eq (m : Labels) : labelsToText m = .ok (labelsTextVal m) := by
  rw [labelsToText, labelsTextVal]
  split
  · rfl
  · rfl

def resourcesTextVal (m : ResourceList) : String :=
  if m.length = 0 then "" else renderJson (resourcesJv m)

theorem resourcesToText_eq (m : ResourceList) :
    resourcesToText m = .ok (resourcesTextVal m) := by
  rw [resourcesToText, resourcesTextVal]
  split
  · rfl
  · rfl

def taintsTextVal (l : List Taint) : String :=
  if l.length = 0 then "" else renderJson (taintsJv l)

theorem taintsToText_eq (l : List Taint) : taintsToText l = .ok (taintsTextVal l) := by
  rw [taintsToText, taintsTextVal]
  split
  · rfl
  · rfl

theorem specToJson_eq (s : PodSpec) : specToJson s = .ok (renderJson s) := rfl

end GCR

namespace GCR

/-- Claim C3: for every supported nested attribute value (label map, resource
list, taint list, toleration list, topology-spread-constraint list), decoding
the encoding returns the value when it is non-empty; encoding an empty or nil
value returns the empty string, never a null marker; and decoding an empty or
whitespace-only string returns the zero value without an error. -/
theorem codec_roundtrip_empty_blank :
    (∀ m : Labels, m ≠ [] → ∀ t, labelsToText m = .ok t → labelsFromText t = .ok m) ∧
    (labelsToText [] = .ok "") ∧
    (∀ s, goTrimSpace s = "" → labelsFromText s = .ok []) ∧
    (∀ m : ResourceList, m ≠ [] → ∀ t, resourcesToText m = .ok t →
       resourcesFromText t = .ok m) ∧
    (resourcesToText [] = .ok "") ∧
    (∀ s, goTrimSpace s = "" → resourcesFromText s = .ok []) ∧
    (∀ l : List Taint, l ≠ [] → ∀ t, taintsToText l = .ok t → taintsFromText t = .ok l) ∧
    (taintsToText [] = .ok "") ∧
    (∀ s, goTrimSpace s = "" → taintsFromText s = .ok []) ∧
    (∀ l : List Toleration, l ≠ [] → ∀ t, tolerationsToText l = .ok t →
       tolerationsFromText t = .ok l) ∧
    (tolerationsToText [] = .ok "") ∧
    (∀ s, goTrimSpace s = "" → tolerationsFromText s = .ok []) ∧
    (∀ l : List TopoSpreadConstraint, l ≠ [] → ∀ t, tscToText l = .ok t →
       tscFromText t = .ok l) ∧
    (tscToText [] = .ok "") ∧
    (∀ s, goTrimSpace s = "" → tscFromText s = .ok []) := by
  refine ⟨labels_roundtrip, rfl, ?_, resources_roundtrip, rfl, ?_,
    taints_roundtrip, rfl, ?_, tolerations_roundtrip, rfl, ?_,
    tsc_roundtrip, rfl, ?_⟩
  · intro s hs
    rw [labelsFromText, if_pos hs]
  · intro s hs
    rw [resourcesFromText, if_pos hs]
  · intro s hs
    rw [taintsFromText, if_pos hs]
  · intro s hs
    rw [tolerationsFromText, if_pos hs]
  · intro s hs
    rw [tscFromText, if_pos hs]

/-- Claim C3 witness: the round trip at concrete non-empty values of all five
types, and blank-text decoding at a whitespace-only string. -/
theorem codec_roundtrip_witness :
    labelsFromText (renderJson (labelsJv [("a", "b")])) = .ok [("a", "b")] ∧
    resourcesFromText (renderJson (resourcesJv [("cpu", "100m")]))
      = .ok [("cpu", "100m")] ∧
    taintsFromText (renderJson (taintsJv [⟨"k", "", "NoSchedule", none⟩]))
      = .ok [⟨"k", "", "NoSchedule", none⟩] ∧
    tolerationsFromText (renderJson (tolerationsJv [⟨"k", "Exists", "", "", some 3⟩]))
      = .ok [⟨"k", "Exists", "", "", some 3⟩] ∧
    tscFromText (renderJson (tscListJv
        [⟨1, "zone", "DoNotSchedule", none, none, none, none, []⟩]))
      = .ok [⟨1, "zone", "DoNotSchedule", none, none, none, none, []⟩] ∧
    labelsFromText " " = .ok [] := by
  refine ⟨?_, ?_, ?_, ?_, ?_, ?_⟩
  · exact codec_roundtrip_empty_blank.1 [("a", "b")] (List.cons_ne_nil _ _) _
      (labelsToText_eq _)
  · exact codec_roundtrip_empty_blank.2.2.2.1 [("cpu", "100m")] (List.cons_ne_nil _ _) _
      (resourcesToText_eq _)
  · exact codec_roundtrip_empty_blank.2.2.2.2.2.2.1 [⟨"k", "", "NoSchedule", none⟩]
      (List.cons_ne_nil _ _) _ (taintsToText_eq _)
  · exact codec_roundtrip_empty_blank.2.2.2.2.2.2.2.2.2.1
      [⟨"k", "Exists", "", "", some 3⟩] (List.cons_ne_nil _ _) _ (by rfl)
  · exact codec_roundtrip_empty_blank.2.2.2.2.2.2.2.2.2.2.2.2.1
      [⟨1, "zone", "DoNotSchedule", none, none, none, none, []⟩]
      (List.cons_ne_nil _ _) _ (by rfl)
  · exact codec_roundtrip_empty_blank.2.2.1 " " rfl

end GCR

namespace GCR

def c1Node : NodeInfo :=
  ⟨⟨5, 0⟩, ⟨6, 0⟩, "n1", "ns1", "prov1", 2, [("a", "b")], [], [], [], "h1"⟩

def c1Mcd : MachineDeploymentInfo :=
  ⟨⟨1, 0⟩, ⟨2, 0⟩, "md1", "ns1", 3, "p1", "z1", .ofStr "1", .ofStr "0", "mc1", ""⟩

/-- Claim C1: the spec says every Store operation returns the generated rowid
of the inserted row. `StoreNodeInfo` discards the `sql.Result` of its insert
(`_, err = d.insertNodeInfo.Exec(...)`) and never assigns its named `rowID`
return: a successful call appends a row (here with engine rowid 1) yet returns
rowID `0`, while its sibling `StoreMachineDeploymentInfo` returns the
generated (positive) rowid as the spec describes. -/
theorem storeNodeInfo_returns_zero_not_rowid :
    (StoreNodeInfo (fun _ => "h") ExecOutcome.success ⟨[]⟩ c1Node).1.1 = (0, none) ∧
    (StoreNodeInfo (fun _ => "h") ExecOutcome.success ⟨[]⟩ c1Node).1.2.rows.map
      Prod.fst = [1] ∧
    (StoreMachineDeploymentInfo (fun _ => "h") ExecOutcome.success ⟨[]⟩ c1Mcd).1
      = (1, none) := by
  refine ⟨rfl, by decide, rfl⟩

def c2Time : GoTime := ⟨1700000000000, 120⟩

/-- Claim C2 counterexample: `UpdateNodeInfoDeletionTimestamp` executes
`Exec(deletionTimestamp, name)` — the raw `time.Time` is bound, which is not
the integer `t.UTC().UnixMilli()` the claim requires for every
timestamp-valued argument. -/
theorem updateNodeInfo_binds_raw_time :
    UpdateNodeInfoDeletionTimestampBound "n1" c2Time
      = [SqlValue.time c2Time, SqlValue.text "n1"] ∧
    SqlValue.time c2Time ≠ SqlValue.int (c2Time.utc.unixMilli) := by
  exact ⟨rfl, by decide⟩

/-- Claim C2 as amended: `adjustParam` normalizes a `time.Time` parameter to
UTC milliseconds and the multi-row query primitive `queryAndMapToInfos` routes
every parameter through it, `UpdatePodDeletionTimestamp` and the Store
operations normalize their timestamps explicitly; but
`UpdateNodeInfoDeletionTimestamp` and `UpdateMCDInfoDeletionTimestamp` bind
the raw `time.Time`, and the single-row `queryAndMapToInfo` hands its
parameters to the statement with no adjustment. -/
theorem timestamp_binding_amended :
    (∀ t : GoTime, adjustParam (.time t) = .int t.utc.unixMilli) ∧
    (∀ (ρ ι : Type) (stmtSem : List SqlValue → RowsOutcome ρ)
       (asInfo : ρ → Except GoErr ι) (t : GoTime) (params : List SqlValue),
       queryAndMapToInfos stmtSem asInfo (.time t :: params)
         = queryAndMapToInfos stmtSem asInfo (.int t.utc.unixMilli :: params)) ∧
    (∀ uid t, UpdatePodDeletionTimestampBound uid t
       = [.int t.utc.unixMilli, .text uid]) ∧
    (∀ m : MachineDeploymentInfo,
       (mcdBoundRow m).creationTimestamp = m.creationTimestamp.utc.unixMilli ∧
       (mcdBoundRow m).snapshotTimestamp = m.snapshotTimestamp.utc.unixMilli) ∧
    (∀ name t, UpdateNodeInfoDeletionTimestampBound name t = [.time t, .text name]) ∧
    (∀ name t, UpdateMCDInfoDeletionTimestampBound name t = [.time t, .text name]) ∧
    (∀ (ρ ι : Type) (stmtSem : List SqlValue → RowsOutcome ρ)
       (asInfo : ρ → Except GoErr ι) (params : List SqlValue),
       queryAndMapToInfo stmtSem asInfo params
         = (match stmtSem params with
            | .queryFail e => .error e
            | .scanFail e =>
              .error (GoErr.wrapped "could not find rows for statement" e)
            | .rows [] =>
              .error (GoErr.wrapped "could not find rows for statement" GoErr.sqlNoRows)
            | .rows (r :: _) => asInfo r)) := by
  refine ⟨fun t => rfl, ?_, fun uid t => rfl, fun m => ⟨rfl, rfl⟩,
    fun name t => rfl, fun name t => rfl, fun ρ ι stmtSem asInfo params => rfl⟩
  intro ρ ι stmtSem asInfo t params
  rw [queryAndMapToInfos, queryAndMapToInfos]
  rfl

/-- Modelled from the spec: the dedup lookups execute count queries
(`SelectPodCountWithUIDAndHash`, `SelectNodeCountWithNameAndHash`; the SQL
text is not under `src/`). An SQL `count` aggregate is never NULL and never
negative, so a successfully scanned row always carries a valid count `≥ 0`. -/
def CountScanWf (o : ScanOneOutcome) : Prop :=
  o ≠ ScanOneOutcome.value none ∧ ∀ c, o = ScanOneOutcome.value (some c) → 0 ≤ c

/-- Claim C4: the count lookups return the sentinel `(-1, nil)` exactly when
the query yields no rows (`sql.ErrNoRows`, however wrapped); any other query
or scan error propagates as `(-1, err)`; a scanned count row is returned with
a nil error; `CountNodeInfoWithHash` behaves identically to
`CountPodInfoWithSpecHash`. -/
theorem count_sentinel_semantics :
    ∀ (uid hash name : String) (o : ScanOneOutcome), CountScanWf o →
      (CountPodInfoWithSpecHash uid hash o = (-1, none)
         ↔ ∃ e, o = .scanErr e ∧ e.isNoRows = true) ∧
      (∀ e, o = .scanErr e → e.isNoRows = false →
         CountPodInfoWithSpecHash uid hash o = (-1, some e)) ∧
      (∀ c, o = .value (some c) → CountPodInfoWithSpecHash uid hash o = (c, none)) ∧
      CountNodeInfoWithHash name hash o = CountPodInfoWithSpecHash uid hash o := by
  intro uid hash name o hwf
  obtain ⟨hwf1, hwf2⟩ := hwf
  cases o with
  | value v =>
    cases v with
    | none => exact absurd rfl hwf1
    | some c =>
      have hc : 0 ≤ c := hwf2 c rfl
      refine ⟨?_, ?_, ?_, rfl⟩
      · constructor
        · intro h
          rw [CountPodInfoWithSpecHash] at h
          have : c = -1 := by
            have := congrArg Prod.fst h
            simpa using this
          omega
        · rintro ⟨e, he, _⟩
          cases he
      · intro e he
        cases he
      · intro c2 hc2
        cases hc2
        rfl
  | scanErr e =>
    by_cases hnr : e.isNoRows = true
    · refine ⟨?_, ?_, ?_, ?_⟩
      · constructor
        · intro _
          exact ⟨e, rfl, hnr⟩
        · intro _
          rw [CountPodInfoWithSpecHash, if_pos hnr]
      · intro e2 he2 hf
        cases he2
        rw [hnr] at hf
        cases hf
      · intro c2 hc2
        cases hc2
      · rw [CountPodInfoWithSpecHash, CountNodeInfoWithHash]
    · have hnr2 : e.isNoRows = false := by
        cases h : e.isNoRows
        · rfl
        · exact absurd h hnr
      refine ⟨?_, ?_, ?_, ?_⟩
      · constructor
        · intro h
          rw [CountPodInfoWithSpecHash, if_neg hnr] at h
          have := congrArg Prod.snd h
          simp at this
        · rintro ⟨e2, he2, hn2⟩
          injection he2 with he3
          subst he3
          exact absurd hn2 hnr
      · intro e2 he2 _
        injection he2 with he3
        subst he3
        rw [CountPodInfoWithSpecHash, if_neg hnr]
      · intro c2 hc2
        cases hc2
      · rw [CountPodInfoWithSpecHash, CountNodeInfoWithHash]

/-- Claim C4 witness: the theorem applied at the no-rows outcome and at a
scanned count of 2. -/
theorem count_sentinel_witness :
    CountPodInfoWithSpecHash "u1" "h1" (.scanErr .sqlNoRows) = (-1, none) ∧
    CountNodeInfoWithHash "n1" "h1" (.value (some 2)) = (2, none) := by
  constructor
  · exact (count_sentinel_semantics "u1" "h1" "n1" (.scanErr .sqlNoRows)
      ⟨by decide, fun c hc => by cases hc⟩).1.mpr ⟨.sqlNoRows, rfl, rfl⟩
  · have h := (count_sentinel_semantics "u1" "h1" "n1" (.value (some 2))
      ⟨by decide, fun c hc => by cases hc; omega⟩)
    rw [h.2.2.2]
    exact h.2.2.1 2 rfl

end GCR

namespace GCR

/-- Claim C5: a zero-row result is reported as NotFound, not as an empty
success: `queryAndMapToInfos` returns `sql.ErrNoRows` on zero rows,
`queryAndMapToInfo` returns an error wrapping `sql.ErrNoRows` on zero rows,
and `LoadLatestMachineDeploymentInfo` for a name never stored yields a
NotFound error. -/
theorem zero_rows_notfound :
    (∀ (ρ ι : Type) (stmtSem : List SqlValue → RowsOutcome ρ)
       (asInfo : ρ → Except GoErr ι) (params : List SqlValue),
       stmtSem (params.map adjustParam) = .rows [] →
       queryAndMapToInfos stmtSem asInfo params = .error GoErr.sqlNoRows) ∧
    (∀ (ρ ι : Type) (stmtSem : List SqlValue → RowsOutcome ρ)
       (asInfo : ρ → Except GoErr ι) (params : List SqlValue),
       stmtSem params = .rows [] →
       ∃ e, queryAndMapToInfo stmtSem asInfo params = .error e ∧ e.isNoRows = true) ∧
    (∀ (tbl : Table McdRow) (name : String),
       (∀ r ∈ tbl.rows, ¬(r.2.name = name)) →
       ∃ e, LoadLatestMachineDeploymentInfo tbl name = .error e ∧
         e.isNoRows = true) := by
  refine ⟨?_, ?_, ?_⟩
  · intro ρ ι stmtSem asInfo params h
    rw [queryAndMapToInfos]
    simp only [h]
    rfl
  · intro ρ ι stmtSem asInfo params h
    rw [queryAndMapToInfo]
    rw [h]
    exact ⟨_, rfl, rfl⟩
  · intro tbl name h
    have hsem : selectLatestMCDInfoSem tbl [.text name] = .rows [] := by
      rw [selectLatestMCDInfoSem]
      have hfil : tbl.rows.filter (fun r => r.2.name == name) = [] := by
        rw [List.filter_eq_nil]
        intro r hr
        simpa using h r hr
      rw [hfil]
      rfl
    rw [LoadLatestMachineDeploymentInfo, queryAndMapToInfo, hsem]
    exact ⟨_, rfl, rfl⟩

/-- Claim C5 witness: the NotFound behaviours at concrete zero-row inputs and
an empty table. -/
theorem zero_rows_notfound_witness :
    queryAndMapToInfos (fun _ => RowsOutcome.rows ([] : List McdRow))
      mcdRowAsInfo [] = .error GoErr.sqlNoRows ∧
    (∃ e, LoadLatestMachineDeploymentInfo ⟨[]⟩ "never-stored" = .error e ∧
       e.isNoRows = true) := by
  constructor
  · exact zero_rows_notfound.1 McdRow MachineDeploymentInfo
      (fun _ => RowsOutcome.rows []) mcdRowAsInfo [] rfl
  · exact zero_rows_notfound.2.2 ⟨[]⟩ "never-stored" (by intro r hr; cases hr)

/-- Claim C6: every Store operation persists the hash column as the object's
hash when it is already set, and as `GetHash` of the object when it is unset —
computed before the insert, never recomputed otherwise. -/
theorem store_hash_lazy_compute :
    ∀ (gh1 : MachineDeploymentInfo → String) (gh2 : WorkerPoolInfo → String)
      (gh3 : PodInfo → String) (gh4 : NodeInfo → String)
      (t1 : Table McdRow) (t2 : Table WorkerPoolRow) (t3 : Table PodRow)
      (t4 : Table NodeRow) (m : MachineDeploymentInfo) (w : WorkerPoolInfo)
      (p : PodInfo) (n : NodeInfo),
      ((StoreMachineDeploymentInfo gh1 .success t1 m).2.rows.map (fun r => r.2.hash)
        = t1.rows.map (fun r => r.2.hash) ++ [if m.hash = "" then gh1 m else m.hash]) ∧
      ((StoreWorkerPoolInfo gh2 .success t2 w).2.rows.map (fun r => r.2.hash)
        = t2.rows.map (fun r => r.2.hash) ++ [if w.hash = "" then gh2 w else w.hash]) ∧
      ((StorePodInfo gh3 .success t3 p).2.rows.map (fun r => r.2.hash)
        = t3.rows.map (fun r => r.2.hash) ++ [if p.hash = "" then gh3 p else p.hash]) ∧
      ((StoreNodeInfo gh4 .success t4 n).1.2.rows.map (fun r => r.2.hash)
        = t4.rows.map (fun r => r.2.hash) ++ [if n.hash = "" then gh4 n else n.hash]) := by
  intro gh1 gh2 gh3 gh4 t1 t2 t3 t4 m w p n
  refine ⟨?_, ?_, ?_, ?_⟩
  · by_cases hh : m.hash = "" <;>
      simp [StoreMachineDeploymentInfo, execInsert, Table.insertRow, mcdBoundRow,
        MachineDeploymentInfo.withHash, hh]
  · by_cases hh : w.hash = "" <;>
      simp [StoreWorkerPoolInfo, execInsert, Table.insertRow, workerPoolBoundRow,
        WorkerPoolInfo.withHash, hh]
  · by_cases hh : p.hash = "" <;>
      simp [StorePodInfo, labelsToText_eq, resourcesToText_eq, specToJson_eq,
        execInsert, Table.insertRow, podBoundRow, PodInfo.withHash, hh]
  · by_cases hh : n.hash = "" <;>
      simp [StoreNodeInfo, labelsToText_eq, taintsToText_eq, resourcesToText_eq,
        execInsert, Table.insertRow, nodeBoundRow, NodeInfo.withHash,
        NodeInfo.withLabels, hh]

/-- Claim C7: `Close` is idempotent: whenever a `Close` call returns nil, the
handle is released and every subsequent `Close` is a nil-returning no-op; a
facade that was never initialized also returns nil. -/
theorem close_idempotent :
    (∀ d : DataAccess, d.close.1 = none →
       d.close.2.dataDB = none ∧ d.close.2.close = (none, d.close.2)) ∧
    DataAccess.close ⟨none⟩ = (none, ⟨none⟩) := by
  constructor
  · intro d h
    obtain ⟨db⟩ := d
    cases db with
    | none => exact ⟨rfl, rfl⟩
    | some conn =>
      cases hc : conn.closeOutcome with
      | none =>
        exact ⟨by simp [DataAccess.close, hc], by simp [DataAccess.close, hc]⟩
      | some e =>
        rw [DataAccess.close] at h
        simp only [hc] at h
        cases h
  · rfl

/-- Claim C7 witness: closing an initialized facade whose underlying close
succeeds, then closing again. -/
theorem close_idempotent_witness :
    (DataAccess.close ⟨some ⟨none⟩⟩).2.dataDB = none ∧
    (DataAccess.close ⟨some ⟨none⟩⟩).2.close
      = (none, (DataAccess.close ⟨some ⟨none⟩⟩).2) := by
  exact close_idempotent.1 ⟨some ⟨none⟩⟩ rfl

/-- Claim C8: a Store call that fails — at an encode step or at the single
insert statement — leaves the table exactly as it was before the call. -/
theorem failed_store_leaves_table_unchanged :
    ∀ (gh1 : MachineDeploymentInfo → String) (gh2 : WorkerPoolInfo → String)
      (gh3 : PodInfo → String) (gh4 : NodeInfo → String)
      (t1 : Table McdRow) (t2 : Table WorkerPoolRow) (t3 : Table PodRow)
      (t4 : Table NodeRow) (m : MachineDeploymentInfo) (w : WorkerPoolInfo)
      (p : PodInfo) (n : NodeInfo) (o : ExecOutcome),
      ((StoreMachineDeploymentInfo gh1 o t1 m).1.2 ≠ none →
        (StoreMachineDeploymentInfo gh1 o t1 m).2 = t1) ∧
      ((StoreWorkerPoolInfo gh2 o t2 w).1.2 ≠ none →
        (StoreWorkerPoolInfo gh2 o t2 w).2 = t2) ∧
      ((StorePodInfo gh3 o t3 p).1.2 ≠ none → (StorePodInfo gh3 o t3 p).2 = t3) ∧
      ((StoreNodeInfo gh4 o t4 n).1.1.2 ≠ none →
        (StoreNodeInfo gh4 o t4 n).1.2 = t4) := by
  intro gh1 gh2 gh3 gh4 t1 t2 t3 t4 m w p n o
  cases o with
  | success =>
    refine ⟨?_, ?_, ?_, ?_⟩
    · intro h
      have hnone : (StoreMachineDeploymentInfo gh1 .success t1 m).1.2 = none := by
        simp [StoreMachineDeploymentInfo, execInsert]
      exact absurd hnone h
    · intro h
      have hnone : (StoreWorkerPoolInfo gh2 .success t2 w).1.2 = none := by
        simp [StoreWorkerPoolInfo, execInsert]
      exact absurd hnone h
    · intro h
      have hnone : (StorePodInfo gh3 .success t3 p).1.2 = none := by
        simp [StorePodInfo, labelsToText_eq, resourcesToText_eq, specToJson_eq,
          execInsert]
      exact absurd hnone h
    · intro h
      have hnone : (StoreNodeInfo gh4 .success t4 n).1.1.2 = none := by
        simp [StoreNodeInfo, labelsToText_eq, taintsToText_eq, resourcesToText_eq,
          execInsert]
      exact absurd hnone h
  | failure e =>
    refine ⟨?_, ?_, ?_, ?_⟩
    · intro _
      simp [StoreMachineDeploymentInfo, execInsert]
    · intro _
      simp [StoreWorkerPoolInfo, execInsert]
    · intro _
      simp [StorePodInfo, labelsToText_eq, resourcesToText_eq, specToJson_eq,
        execInsert]
    · intro _
      simp [StoreNodeInfo, labelsToText_eq, taintsToText_eq, resourcesToText_eq,
        execInsert]

/-- Claim C8 witness: a failing insert at a concrete pod and node leaves the
concrete (empty) tables unchanged. -/
theorem failed_store_witness :
    (StorePodInfo (fun _ => "h") (.failure (.errMsg "disk full")) ⟨[]⟩
      ⟨⟨1, 0⟩, ⟨2, 0⟩, "p1", "ns1", "u1", "nd1", "", [], [], Jv.jobj [], 0, "h1"⟩).2
      = (⟨[]⟩ : Table PodRow) ∧
    (StoreNodeInfo (fun _ => "h") (.failure (.errMsg "disk full")) ⟨[]⟩ c1Node).1.2
      = (⟨[]⟩ : Table NodeRow) := by
  constructor
  · exact (failed_store_leaves_table_unchanged (fun _ => "h") (fun _ => "h")
      (fun _ => "h") (fun _ => "h") ⟨[]⟩ ⟨[]⟩ ⟨[]⟩ ⟨[]⟩ c1Mcd
      ⟨⟨1, 0⟩, ⟨2, 0⟩, "w1", "ns1", "m5", "amd64", 1, 3, .ofStr "1", .ofStr "0",
        [], "h"⟩
      ⟨⟨1, 0⟩, ⟨2, 0⟩, "p1", "ns1", "u1", "nd1", "", [], [], Jv.jobj [], 0, "h1"⟩
      c1Node (.failure (.errMsg "disk full"))).2.2.1 (by decide)
  · exact (failed_store_leaves_table_unchanged (fun _ => "h") (fun _ => "h")
      (fun _ => "h") (fun _ => "h") ⟨[]⟩ ⟨[]⟩ ⟨[]⟩ ⟨[]⟩ c1Mcd
      ⟨⟨1, 0⟩, ⟨2, 0⟩, "w1", "ns1", "m5", "amd64", 1, 3, .ofStr "1", .ofStr "0",
        [], "h"⟩
      ⟨⟨1, 0⟩, ⟨2, 0⟩, "p1", "ns1", "u1", "nd1", "", [], [], Jv.jobj [], 0, "h1"⟩
      c1Node (.failure (.errMsg "disk full"))).2.2.2 (by decide)

end GCR

namespace GCR

/-- Claim C9: `StoreNodeInfo` removes the
`node.machine.sapcloud.io/last-applied-anno-labels-taints` label from the
caller-supplied map (the `delete` mutates the shared Go map, modelled by the
returned `Labels` component), the removal happens after the hash was computed
over the original object, and the persisted labels column is the encoding of
the scrubbed map, so it never contains that key. -/
theorem storeNodeInfo_label_scrub :
    ∀ (getHash : NodeInfo → String) (o : ExecOutcome) (tbl : Table NodeRow)
      (n : NodeInfo),
      ((StoreNodeInfo getHash o tbl n).2 = eraseLabelKey n.labels mcmLastAppliedKey) ∧
      ((StoreNodeInfo getHash o tbl n).2.all
        (fun kv => kv.1 != mcmLastAppliedKey) = true) ∧
      ((StoreNodeInfo getHash .success tbl n).1.2.rows.map (fun r => r.2.labels)
        = tbl.rows.map (fun r => r.2.labels)
          ++ [labelsTextVal (eraseLabelKey n.labels mcmLastAppliedKey)]) ∧
      ((StoreNodeInfo getHash .success tbl n).1.2.rows.map (fun r => r.2.hash)
        = tbl.rows.map (fun r => r.2.hash)
          ++ [if n.hash = "" then getHash n else n.hash]) := by
  intro getHash o tbl n
  have hcaller : ∀ o2 : ExecOutcome,
      (StoreNodeInfo getHash o2 tbl n).2 = eraseLabelKey n.labels mcmLastAppliedKey := by
    intro o2
    by_cases hh : n.hash = "" <;> cases o2 <;>
      simp [StoreNodeInfo, labelsToText_eq, taintsToText_eq, resourcesToText_eq,
        execInsert, NodeInfo.withHash, NodeInfo.withLabels, hh]
  refine ⟨hcaller o, ?_, ?_, ?_⟩
  · rw [hcaller o]
    rw [List.all_eq_true]
    intro kv hkv
    have := List.of_mem_filter hkv
    exact this
  · by_cases hh : n.hash = "" <;>
      simp [StoreNodeInfo, labelsToText_eq, taintsToText_eq, resourcesToText_eq,
        execInsert, Table.insertRow, nodeBoundRow, NodeInfo.withHash,
        NodeInfo.withLabels, hh]
  · by_cases hh : n.hash = "" <;>
      simp [StoreNodeInfo, labelsToText_eq, taintsToText_eq, resourcesToText_eq,
        execInsert, Table.insertRow, nodeBoundRow, NodeInfo.withHash,
        NodeInfo.withLabels, hh]

/-- Claim C10: `GetLatestCADeployment` reports an empty result as `nil, nil`;
but `GetCADeploymentWithHash` binds its hash argument to the parameterless
`selectLatestCADeployment` statement (`selectCADeploymentByHash` is prepared
and never used), so the call fails the `database/sql` argument-count check and
returns an error — never the `nil, nil` no-match success the claim describes. -/
theorem caDeployment_nil_success_eval :
    GetLatestCADeployment ⟨[]⟩ = (none, none) ∧
    (GetCADeploymentWithHash ⟨[]⟩ "abc").1 = none ∧
    (GetCADeploymentWithHash ⟨[]⟩ "abc").2
      = some (GoErr.errMsg "sql: statement argument count mismatch") ∧
    (GetCADeploymentWithHash ⟨[(1, ⟨"least-waste", 10, "prio", "abc"⟩)]⟩ "abc").2
      = some (GoErr.errMsg "sql: statement argument count mismatch") := by
  refine ⟨rfl, rfl, rfl, rfl⟩

end GCR
